import Mathlib

/-!
Verification development for os161-1.99: `dumbvm.c`.

A shallow embedding of `src/arch/mips/vm/dumbvm.c` (built with `OPT_A3`):
the coremap page allocator, the address-space manager and the TLB-refill
fault handler.

Conventions of the embedding

* `unsigned`, `paddr_t`, `vaddr_t`, `size_t` values are natural numbers
  below `2^32`; every C operation that can wrap is written with an explicit
  `% WORD`.
* `int` values (page counts handed to `alloc_kpages`, coremap cells, return
  codes) are integers.
* The coremap is a list of cells whose length is the number of frames.  An
  access outside the array is undefined in C; the embedding reports it as
  `none`.  A failed `KASSERT` (a kernel panic) is reported as `none` too.
* The contents of page frames are not part of the state, only the
  bookkeeping is.
-/

namespace Dumbvm

set_option linter.unusedVariables false

/-! ## Machine words -/

/-- Number of values of a 32-bit machine word. -/
def WORD : Nat := 4294967296

/-- Unsigned 32-bit addition. -/
def add32 (a b : Nat) : Nat := (a + b) % WORD

/-- Unsigned 32-bit subtraction. -/
def sub32 (a b : Nat) : Nat := (a + (WORD - b % WORD)) % WORD

/-- Conversion of an `int` to `unsigned` (two's complement). -/
def toU32 (x : Int) : Nat := (x % 4294967296).toNat

/-- Bitwise complement of a 32-bit word, the C operator `~`. -/
def not32 (a : Nat) : Nat := 4294967295 ^^^ (a % WORD)

/-! ## Constants of the machine headers -/

/-- Modelled from the spec: the fixed size of a page frame (section 3);
`PAGE_SIZE` of the machine header `vm.h`, which is not among the sources. -/
def PAGE_SIZE : Nat := 4096

/-- Modelled from the spec: the mask that reduces an address to its containing
page (section 4.2); `PAGE_FRAME` of `vm.h`, which is not among the sources. -/
def PAGE_FRAME : Nat := 0xfffff000

/-- Modelled from the spec: base of the direct-mapped kernel segment through
which physical frames are addressed; `MIPS_KSEG0` of `vm.h`, which is not among
the sources. -/
def MIPS_KSEG0 : Nat := 0x80000000

/-- Modelled from the spec: the fixed top-of-stack virtual address (section
4.2); `USERSTACK` of `vm.h`, which is not among the sources. -/
def USERSTACK : Nat := 0x80000000

/-- Source line 49: under dumbvm, always have 48k of user stack. -/
def DUMBVM_STACKPAGES : Nat := 12

/-- Modelled from the spec: the kernel address through which a physical frame
is reached; the macro `PADDR_TO_KVADDR` of `vm.h`, which is not among the
sources. -/
def PADDR_TO_KVADDR (paddr : Nat) : Nat := add32 paddr MIPS_KSEG0

/-- Modelled from the spec: error code OUT_OF_MEMORY (section 7); `ENOMEM` of
`kern/errno.h`, which is not among the sources; the number is the OS/161 one. -/
def ENOMEM : Int := 3

/-- Modelled from the spec: error code ADDRESS_ERROR (section 7); `EFAULT` of
`kern/errno.h`, which is not among the sources; the number is the OS/161 one. -/
def EFAULT : Int := 6

/-- Modelled from the spec: error code INVALID_ARGUMENT (section 7); `EINVAL`
of `kern/errno.h`, which is not among the sources; the number is the OS/161 one. -/
def EINVAL : Int := 8

/-- Modelled from the spec: error code TOO_MANY_REGIONS (section 7); `EUNIMP`
of `kern/errno.h`, which is not among the sources; the number is the OS/161 one. -/
def EUNIMP : Int := 2

/-! ## The coremap allocator -/

/-- The file-scope state of `dumbvm.c` (lines 52-57) together with the two
bounds kept by `ram.c`, from which the allocator is booted. -/
structure VM where
  /-- The static `first` (line 52). -/
  first : Nat
  /-- The static `last` (line 52). -/
  last : Nat
  /-- The static `total_num_page` (line 53). -/
  total_num_page : Nat
  /-- The static `vm_booted` (line 54). -/
  vm_booted : Bool
  /-- The array `coremap` (line 55), one cell per frame. -/
  coremap : List Int
  /-- The static `size_coremap` (line 56). -/
  size_coremap : Nat
  /-- The static `coremap_pg` (line 57). -/
  coremap_pg : Nat
  /-- The bound `firstpaddr` of `ram.c`. -/
  ram_firstpaddr : Nat
  /-- The bound `lastpaddr` of `ram.c`. -/
  ram_lastpaddr : Nat
deriving DecidableEq, Repr

/-- Modelled from the spec: `ram_stealmem` of `ram.c`, which is not among the
sources: the bootstrap bump allocation that hands out raw memory without
bookkeeping (section 4.1).  It returns 0 when the request does not fit. -/
def ram_stealmem (vm : VM) (npages : Nat) : Nat × VM :=
  let size := (npages * PAGE_SIZE) % WORD
  if vm.ram_firstpaddr + size > vm.ram_lastpaddr then (0, vm)
  else (vm.ram_firstpaddr, { vm with ram_firstpaddr := vm.ram_firstpaddr + size })

/-- Modelled from the spec: `ram_getsize` of `ram.c`, which is not among the
sources: the query for the physical memory still unused at boot (section 6).
It hands over both bounds and leaves nothing to the bump allocator. -/
def ram_getsize (vm : VM) : (Nat × Nat) × VM :=
  ((vm.ram_firstpaddr, vm.ram_lastpaddr), { vm with ram_firstpaddr := 0, ram_lastpaddr := 0 })

/-- Source lines 106-118, `getppages` (the spinlock is not modelled). -/
def getppages (vm : VM) (npages : Nat) : Nat × VM :=
  ram_stealmem vm npages

/-- Source lines 84-90: the loop marking the frames occupied by the coremap
itself; `cnt` iterations remain and `i` is the loop variable. -/
def boot_mark (coremap_pg : Nat) : Nat → Nat → List Int → Option (List Int)
  | 0, _, cm => some cm
  | cnt + 1, i, cm =>
    if i < cm.length then
      boot_mark coremap_pg cnt (i + 1)
        (cm.set i (if i = 0 then (coremap_pg : Int) else 0 - (coremap_pg : Int)))
    else none

/-- Source lines 65-104, `vm_bootstrap`. -/
def vm_bootstrap (vm : VM) : Option VM :=
  let r := ram_getsize vm
  let first := r.1.1
  let last := r.1.2
  let total := sub32 last first / PAGE_SIZE
  let size_coremap := total * 4
  let coremap_pg := size_coremap / PAGE_SIZE + 1
  match boot_mark coremap_pg coremap_pg 0 (List.replicate total 0) with
  | none => none
  | some cm =>
    some { r.2 with first := first, last := last, total_num_page := total,
                    size_coremap := size_coremap, coremap_pg := coremap_pg,
                    coremap := cm, vm_booted := true }

/-- Source lines 139-144: the inner loop that looks for a non-free cell among
`coremap[a+i]`; `cnt` iterations remain, `a` is the loop variable.  The result
is the final value of `found`. -/
def run_is_free (cm : List Int) (i : Nat) : Nat → Nat → Option Bool
  | 0, _ => some true
  | cnt + 1, a =>
    match cm[(a + i) % WORD]? with
    | none => none
    | some c => if c ≠ 0 then some false else run_is_free cm i cnt (a + 1)

/-- Source lines 147-149: the loop that marks the member cells of a run with
the negated length. -/
def mark_run (npages : Int) (i : Nat) : Nat → Nat → List Int → Option (List Int)
  | 0, _, cm => some cm
  | cnt + 1, a, cm =>
    if (a + i) % WORD < cm.length then
      mark_run npages i cnt (a + 1) (cm.set ((a + i) % WORD) (0 - npages))
    else none

/-- Source lines 135-158: the scan of `alloc_kpages` once the allocator is
booted; `fuel` iterations of the outer loop remain and `i` is its variable.
The result is the returned address and the state. -/
def alloc_scan (vm : VM) (npages : Int) : Nat → Nat → Option (Nat × VM)
  | 0, _ => some (0, vm)
  | fuel + 1, i =>
    match vm.coremap[i]? with
    | none => none
    | some c =>
      if c = 0 then
        match run_is_free vm.coremap i (npages - 1).toNat 1 with
        | none => none
        | some true =>
          match mark_run npages i (npages - 1).toNat 1 (vm.coremap.set i npages) with
          | none => none
          | some cm =>
            some (PADDR_TO_KVADDR (add32 ((i * PAGE_SIZE) % WORD) vm.first),
                  { vm with coremap := cm })
        | some false => alloc_scan vm npages fuel (i + 1)
      else alloc_scan vm npages fuel (i + 1)

/-- Source lines 121-170, `alloc_kpages`.  The bound of the outer loop is
`total_num_page - npages` computed in unsigned arithmetic. -/
def alloc_kpages (vm : VM) (npages : Int) : Option (Nat × VM) :=
  if vm.vm_booted = false then
    let r := getppages vm (toU32 npages)
    if r.1 = 0 then some (0, r.2) else some (PADDR_TO_KVADDR r.1, r.2)
  else
    alloc_scan vm npages (toU32 ((vm.total_num_page : Int) - npages)) 0

/-- Source lines 182-185: the loop of `free_kpages`; `cnt` iterations remain
and `i` is the running index. -/
def free_loop : Nat → Nat → List Int → Option (List Int)
  | 0, _, cm => some cm
  | cnt + 1, i, cm =>
    if i < cm.length then free_loop cnt (i + 1) (cm.set i 0) else none

/-- Source lines 172-192, `free_kpages`. -/
def free_kpages (vm : VM) (addr : Nat) : Option VM :=
  let phy := sub32 addr MIPS_KSEG0
  let i := sub32 phy vm.first / PAGE_SIZE
  match vm.coremap[i]? with
  | none => none
  | some a =>
    match free_loop a.toNat i vm.coremap with
    | none => none
    | some cm => some { vm with coremap := cm }

/-- The facts `vm_bootstrap` establishes and no later operation changes: the
allocator is marked ready, the bounds are machine words, the number of frames
is `(last - first) / PAGE_SIZE` and the coremap has one cell per frame. -/
def Booted (vm : VM) : Prop :=
  vm.vm_booted = true ∧ vm.first < WORD ∧ vm.last < WORD ∧
  vm.total_num_page = sub32 vm.last vm.first / PAGE_SIZE ∧
  vm.coremap.length = vm.total_num_page

instance (vm : VM) : Decidable (Booted vm) := by
  unfold Booted; exact inferInstance

/-- A machine before `vm_bootstrap`, used as a concrete input: `ram.c` reports
the 4 frames from physical address `0x1000` to `0x5000` as unused. -/
def vm_unbooted : VM :=
  { first := 0, last := 0, total_num_page := 0, vm_booted := false,
    coremap := [], size_coremap := 0, coremap_pg := 0,
    ram_firstpaddr := 0x1000, ram_lastpaddr := 0x5000 }

/-- A small machine used as a concrete input: 4 frames from physical address
`0x1000`, the first of which holds the coremap.  With the cells `[1, 0, 0, 0]`
it is the state `vm_bootstrap` produces from `vm_unbooted`. -/
def vm4 (cells : List Int) : VM :=
  { first := 0x1000, last := 0x5000, total_num_page := 4, vm_booted := true,
    coremap := cells, size_coremap := 16, coremap_pg := 1,
    ram_firstpaddr := 0, ram_lastpaddr := 0 }

/-- The cells `j .. j+n-1` of the coremap are all free. -/
def FreeRun (cm : List Int) (j n : Nat) : Prop :=
  ∀ k, k < n → cm[j + k]? = some 0

instance (cm : List Int) (j n : Nat) : Decidable (FreeRun cm j n) := by
  unfold FreeRun; exact inferInstance

/-- The effect of allocating the run of `n` frames at frame index `i`: the
run was free, the head holds `n`, the members hold `-n`, nothing else
changed, and `addr` is the kernel address of frame `i`. -/
def AllocatedAt (vm vm2 : VM) (n i addr : Nat) : Prop :=
  i + n ≤ vm.coremap.length ∧ FreeRun vm.coremap i n ∧
  vm2 = { vm with coremap := vm2.coremap } ∧
  vm2.coremap.length = vm.coremap.length ∧
  (∀ j, vm2.coremap[j]? =
    if j = i then some (n : Int)
    else if i < j ∧ j < i + n then some (-(n : Int)) else vm.coremap[j]?) ∧
  addr = PADDR_TO_KVADDR (add32 ((i * PAGE_SIZE) % WORD) vm.first)

/-! ## Address spaces -/

/-- Modelled from the spec: fault kind READ (section 6); `VM_FAULT_READ` of
`vm.h`, which is not among the sources. -/
def VM_FAULT_READ : Int := 0

/-- Modelled from the spec: fault kind WRITE (section 6); `VM_FAULT_WRITE` of
`vm.h`, which is not among the sources. -/
def VM_FAULT_WRITE : Int := 1

/-- Modelled from the spec: fault kind READONLY-VIOLATION (section 6);
`VM_FAULT_READONLY` of `vm.h`, which is not among the sources. -/
def VM_FAULT_READONLY : Int := 2

/-- Modelled from the spec: the fixed capacity of the translation cache
(section 5); `NUM_TLB` of `mips/tlb.h`, which is not among the sources. -/
def NUM_TLB : Nat := 64

/-- Modelled from the spec: the bit of a translation that makes it writable
(section 4.2); `TLBLO_DIRTY` of `mips/tlb.h`, which is not among the sources. -/
def TLBLO_DIRTY : Nat := 0x00000400

/-- Modelled from the spec: the bit that marks a translation-cache slot as
holding a translation (section 4.2); `TLBLO_VALID` of `mips/tlb.h`, which is
not among the sources. -/
def TLBLO_VALID : Nat := 0x00000200

/-- Modelled from the spec: the Address Space record of section 3, two
segment descriptors, the stack's physical base and the read-only hint flag;
`struct addrspace` of `addrspace.h`, which is not among the sources.  The
fields are the ones `dumbvm.c` reads and writes. -/
structure addrspace where
  as_vbase1 : Nat
  as_pbase1 : Nat
  as_npages1 : Nat
  as_vbase2 : Nat
  as_pbase2 : Nat
  as_npages2 : Nat
  as_stackpbase : Nat
  flag : Bool
deriving DecidableEq, Repr

/-- Modelled from the spec: a process owns at most one address space (section
3); the part of `struct proc` of `proc.h`, which is not among the sources,
that `vm_fault` reads through `curproc_getas`. -/
structure proc where
  p_addrspace : Option addrspace
deriving DecidableEq, Repr

/-- Modelled from the spec: one slot of the translation cache (section 4.2),
the pair of words read by `tlb_read` and written by `tlb_write` of
`mips/tlb.h`, which is not among the sources. -/
structure TLBEntry where
  ehi : Nat
  elo : Nat
deriving DecidableEq, Repr

/-- Conversion of a `size_t` to the `int` parameter of `alloc_kpages`. -/
def toInt32 (x : Nat) : Int :=
  if x % WORD < 2147483648 then ((x % WORD : Nat) : Int) else ((x % WORD : Nat) : Int) - 4294967296

/-- Source lines 333-354, `as_create`, when `kmalloc` provides the record. -/
def as_create : addrspace :=
  { as_vbase1 := 0, as_pbase1 := 0, as_npages1 := 0,
    as_vbase2 := 0, as_pbase2 := 0, as_npages2 := 0,
    as_stackpbase := 0, flag := false }

/-- Source lines 403-410 of `as_define_region`: the page-aligned base computed
from `vaddr`. -/
def region_base (vaddr : Nat) : Nat := vaddr &&& PAGE_FRAME

/-- Source lines 403-410 of `as_define_region`: the page count computed from
`vaddr` and `sz`. -/
def region_npages (vaddr sz : Nat) : Nat :=
  let sz1 := add32 sz (vaddr &&& not32 PAGE_FRAME)
  let sz2 := sub32 (add32 sz1 PAGE_SIZE) 1 &&& PAGE_FRAME
  sz2 / PAGE_SIZE

/-- Source lines 397-434, `as_define_region`; the three permission arguments
are ignored by the code. -/
def as_define_region (as : addrspace) (vaddr sz : Nat)
    (readable writeable executable : Int) : Int × addrspace :=
  let npages := region_npages vaddr sz
  let vaddr := region_base vaddr
  if as.as_vbase1 = 0 then
    (0, { as with as_vbase1 := vaddr, as_npages1 := npages })
  else if as.as_vbase2 = 0 then
    (0, { as with as_vbase2 := vaddr, as_npages2 := npages })
  else
    (EUNIMP, as)

/-- Source lines 436-441, `as_zero_region`: it clears the contents of the
frames, which are not part of the state. -/
def as_zero_region (vm : VM) (paddr npages : Nat) : VM := vm

/-- Source lines 443-487, `as_prepare_load`.  A failed `KASSERT` gives `none`. -/
def as_prepare_load (vm : VM) (as : addrspace) : Option (Int × addrspace × VM) :=
  if as.as_pbase1 = 0 ∧ as.as_pbase2 = 0 ∧ as.as_stackpbase = 0 then
    match alloc_kpages vm (toInt32 as.as_npages1) with
    | none => none
    | some (a1, vm1) =>
      let as1 := { as with as_pbase1 := sub32 a1 MIPS_KSEG0 }
      if as1.as_pbase1 = 0 then some (ENOMEM, as1, vm1)
      else
        match alloc_kpages vm1 (toInt32 as1.as_npages2) with
        | none => none
        | some (a2, vm2) =>
          let as2 := { as1 with as_pbase2 := sub32 a2 MIPS_KSEG0 }
          if as2.as_pbase2 = 0 then some (ENOMEM, as2, vm2)
          else
            match alloc_kpages vm2 (DUMBVM_STACKPAGES : Int) with
            | none => none
            | some (a3, vm3) =>
              let as3 := { as2 with as_stackpbase := sub32 a3 MIPS_KSEG0 }
              if as3.as_stackpbase = 0 then some (ENOMEM, as3, vm3)
              else
                let z1 := as_zero_region vm3 as3.as_pbase1 as3.as_npages1
                let z2 := as_zero_region z1 as3.as_pbase2 as3.as_npages2
                let z3 := as_zero_region z2 as3.as_stackpbase DUMBVM_STACKPAGES
                some (0, as3, z3)
  else none

/-- Source lines 356-365, `as_destroy` (the release of the record itself is
not modelled). -/
def as_destroy (vm : VM) (as : addrspace) : Option VM :=
  match free_kpages vm (add32 as.as_pbase1 MIPS_KSEG0) with
  | none => none
  | some vm1 =>
    match free_kpages vm1 (add32 as.as_pbase2 MIPS_KSEG0) with
    | none => none
    | some vm2 => free_kpages vm2 (add32 as.as_stackpbase MIPS_KSEG0)

/-- Source lines 505-544, `as_copy`; `kmalloc_ok` tells whether `kmalloc`
provides the record of the new address space.  The result is the returned
code, the address space stored through `ret` and the allocator state; the
copying of the frame contents is not part of the state. -/
def as_copy (vm : VM) (old : addrspace) (kmalloc_ok : Bool) :
    Option (Int × Option addrspace × VM) :=
  if kmalloc_ok = false then some (ENOMEM, none, vm)
  else
    let new := { as_create with as_vbase1 := old.as_vbase1, as_npages1 := old.as_npages1,
                                as_vbase2 := old.as_vbase2, as_npages2 := old.as_npages2 }
    match as_prepare_load vm new with
    | none => none
    | some (r, new2, vm2) =>
      if r ≠ 0 then
        match as_destroy vm2 new2 with
        | none => none
        | some vm3 => some (ENOMEM, none, vm3)
      else if new2.as_pbase1 ≠ 0 ∧ new2.as_pbase2 ≠ 0 ∧ new2.as_stackpbase ≠ 0 then
        some (0, some new2, vm2)
      else none

/-- Source lines 253-265 of `vm_fault`: the assertions that the address space
has been set up properly. -/
def as_setup (as : addrspace) : Prop :=
  as.as_vbase1 ≠ 0 ∧ as.as_pbase1 ≠ 0 ∧ as.as_npages1 ≠ 0 ∧
  as.as_vbase2 ≠ 0 ∧ as.as_pbase2 ≠ 0 ∧ as.as_npages2 ≠ 0 ∧
  as.as_stackpbase ≠ 0 ∧
  as.as_vbase1 &&& PAGE_FRAME = as.as_vbase1 ∧
  as.as_pbase1 &&& PAGE_FRAME = as.as_pbase1 ∧
  as.as_vbase2 &&& PAGE_FRAME = as.as_vbase2 ∧
  as.as_pbase2 &&& PAGE_FRAME = as.as_pbase2 ∧
  as.as_stackpbase &&& PAGE_FRAME = as.as_stackpbase

instance (as : addrspace) : Decidable (as_setup as) := by
  unfold as_setup; exact inferInstance

/-- Source line 268: `vtop1`. -/
def vtop1 (as : addrspace) : Nat := add32 as.as_vbase1 ((as.as_npages1 * PAGE_SIZE) % WORD)

/-- Source line 270: `vtop2`. -/
def vtop2 (as : addrspace) : Nat := add32 as.as_vbase2 ((as.as_npages2 * PAGE_SIZE) % WORD)

/-- Source line 271: `stackbase`. -/
def stackbase : Nat := sub32 USERSTACK ((DUMBVM_STACKPAGES * PAGE_SIZE) % WORD)

/-- Source line 272: `stacktop`. -/
def stacktop : Nat := USERSTACK

/-- The test of source line 274: the page lies in segment 1. -/
def in_seg1 (as : addrspace) (page : Nat) : Prop := page ≥ as.as_vbase1 ∧ page < vtop1 as

/-- The test of source line 278: the page lies in segment 2. -/
def in_seg2 (as : addrspace) (page : Nat) : Prop := page ≥ as.as_vbase2 ∧ page < vtop2 as

/-- The test of source line 281: the page lies in the stack. -/
def in_stack (page : Nat) : Prop := page ≥ stackbase ∧ page < stacktop

instance (as : addrspace) (page : Nat) : Decidable (in_seg1 as page) := by
  unfold in_seg1; exact inferInstance

instance (as : addrspace) (page : Nat) : Decidable (in_seg2 as page) := by
  unfold in_seg2; exact inferInstance

instance (page : Nat) : Decidable (in_stack page) := by
  unfold in_stack; exact inferInstance

/-- Source lines 274-286 of `vm_fault`: the physical address of a page, from
the first of the three regions that contains it. -/
def fault_paddr (as : addrspace) (faultaddress : Nat) : Option Nat :=
  if in_seg1 as faultaddress then
    some (add32 (sub32 faultaddress as.as_vbase1) as.as_pbase1)
  else if in_seg2 as faultaddress then
    some (add32 (sub32 faultaddress as.as_vbase2) as.as_pbase2)
  else if in_stack faultaddress then
    some (add32 (sub32 faultaddress stackbase) as.as_stackpbase)
  else none

/-- Source lines 299-304 and 314-318 of `vm_fault`: the low word of the
translation that is installed. -/
def fault_elo (as : addrspace) (faultaddress paddr : Nat) : Nat :=
  let elo := paddr ||| TLBLO_DIRTY ||| TLBLO_VALID
  if in_seg1 as faultaddress ∧ as.flag = true then elo &&& not32 TLBLO_DIRTY else elo

/-- Source lines 294-310 of `vm_fault`: the loop over the slots of the
translation cache; `cnt` iterations remain and `i` is the loop variable.  The
result is `some (some tlb2)` when a slot was written, `some none` when every
slot holds a valid translation, and `none` when the machine has no slot `i`. -/
def tlb_install (ehi elo : Nat) (tlb : List TLBEntry) :
    Nat → Nat → Option (Option (List TLBEntry))
  | 0, _ => some none
  | cnt + 1, i =>
    match tlb[i]? with
    | none => none
    | some e =>
      if e.elo &&& TLBLO_VALID ≠ 0 then tlb_install ehi elo tlb cnt (i + 1)
      else some (some (tlb.set i { ehi := ehi, elo := elo }))

/-- Modelled from the spec: `tlb_random` of `mips/tlb.h`, which is not among
the sources: the translation is installed into a slot chosen at random,
overwriting whatever was there (section 4.2).  The argument `rnd` is the
choice made by the hardware. -/
def tlb_random (ehi elo : Nat) (tlb : List TLBEntry) (rnd : Nat) : List TLBEntry :=
  tlb.set (rnd % NUM_TLB) { ehi := ehi, elo := elo }

/-- Source lines 207-331, `vm_fault`, for the current process `curproc`, the
translation cache `tlb` and the slot `rnd` the hardware would pick at random.
The result is the returned code and the translation cache. -/
def vm_fault (curproc : Option proc) (tlb : List TLBEntry) (rnd : Nat)
    (faulttype : Int) (faultaddress : Nat) : Option (Int × List TLBEntry) :=
  let faultaddress := faultaddress &&& PAGE_FRAME
  if faulttype = VM_FAULT_READONLY then some (-1, tlb)
  else if faulttype = VM_FAULT_READ ∨ faulttype = VM_FAULT_WRITE then
    match curproc with
    | none => some (EFAULT, tlb)
    | some p =>
      match p.p_addrspace with
      | none => some (EFAULT, tlb)
      | some as =>
        if as_setup as then
          match fault_paddr as faultaddress with
          | none => some (EFAULT, tlb)
          | some paddr =>
            if paddr &&& PAGE_FRAME = paddr then
              let ehi := faultaddress
              let elo := fault_elo as faultaddress paddr
              match tlb_install ehi elo tlb NUM_TLB 0 with
              | none => none
              | some (some tlb2) => some (0, tlb2)
              | some none => some (0, tlb_random ehi elo tlb rnd)
            else none
        else none
  else some (EINVAL, tlb)

/-- The outcome `result` of a fault is: code 0, and one slot of the
translation cache `tlb` has received the translation of `page` to the physical
page `paddr`. -/
def FaultInstalls (as : addrspace) (tlb : List TLBEntry)
    (result : Option (Int × List TLBEntry)) (page paddr : Nat) : Prop :=
  ∃ k, k < NUM_TLB ∧
    result = some (0, tlb.set k { ehi := page, elo := fault_elo as page paddr }) ∧
    fault_elo as page paddr &&& PAGE_FRAME = paddr

/-- An address space used as a concrete input: a one-page segment 1 at
`0x400000`, a one-page segment 2 whose base is `vbase2`, frames at `0x2000`,
`0x3000` and `0x4000`. -/
def as_sample (vbase2 : Nat) : addrspace :=
  { as_vbase1 := 0x400000, as_pbase1 := 0x2000, as_npages1 := 1,
    as_vbase2 := vbase2, as_pbase2 := 0x3000, as_npages2 := 1,
    as_stackpbase := 0x4000, flag := false }

/-- An address space used as a concrete input: two one-page regions defined,
no physical memory attached yet. -/
def as_two_regions : addrspace :=
  { as_create with as_vbase1 := 0x400000, as_npages1 := 1,
                   as_vbase2 := 0x10000000, as_npages2 := 1 }

/-- A translation cache used as a concrete input: `NUM_TLB` slots, none of
which holds a valid translation. -/
def tlb_empty : List TLBEntry := List.replicate NUM_TLB { ehi := 0, elo := 0 }

/-- A translation cache used as a concrete input: slots 0 and 1 hold valid
translations, the other slots hold none. -/
def tlb_two_valid : List TLBEntry :=
  [{ ehi := 0x400000, elo := 0x2600 }, { ehi := 0x500000, elo := 0x3600 }]
    ++ List.replicate 62 { ehi := 0, elo := 0 }

/-- A machine used as a concrete input: 16 frames from physical address
`0x1000`; frame 0 holds the coremap, frames 3 and 8 are allocated. -/
def vm16 : VM :=
  { first := 0x1000, last := 0x11000, total_num_page := 16, vm_booted := true,
    coremap := [1, 0, 0, 1, 0, 0, 0, 0, 1, 0, 0, 0, 0, 0, 0, 0],
    size_coremap := 64, coremap_pg := 1, ram_firstpaddr := 0, ram_lastpaddr := 0 }

/-! ## Well-formed coremaps -/

/-- The cells `h .. h+L-1` form an allocated run of the coremap `cm`: the run
lies inside the array, its first cell holds the length `L > 0` and each of the
remaining `L-1` cells holds `-L`. -/
def IsRun (cm : List Int) (h L : Nat) : Prop :=
  0 < L ∧ h + L ≤ cm.length ∧ cm[h]? = some (L : Int) ∧
  ∀ k, k < h + L → h < k → cm[k]? = some (-(L : Int))

instance (cm : List Int) (h L : Nat) : Decidable (IsRun cm h L) := by
  unfold IsRun; exact inferInstance

/-- Well-formedness of a coremap: every non-zero cell belongs to a run. -/
def CoremapWF (cm : List Int) : Prop :=
  ∀ j, j < cm.length → cm[j]? ≠ some 0 →
    ∃ h, h < cm.length ∧ ∃ L, L < cm.length + 1 ∧ IsRun cm h L ∧ h ≤ j ∧ j < h + L

instance (cm : List Int) : Decidable (CoremapWF cm) := by
  unfold CoremapWF; exact inferInstance

/-- Source lines 179-180 of `free_kpages`: the frame index computed from the
address handed to it. -/
def frame_index (vm : VM) (addr : Nat) : Nat :=
  sub32 (sub32 addr MIPS_KSEG0) vm.first / PAGE_SIZE

end Dumbvm

/-!
Verification development for os161-1.99: `proc_syscalls.c`.

A shallow embedding of `src/syscall/proc_syscalls.c` (built with `OPT_A2`):
`sys_fork`, `sys__exit`, `sys_getpid`, `sys_waitpid` and
`proc_table_cleanup`, over an explicit heap of process-table records.

Conventions of the embedding

* A pointer is an address (a natural number) or `none` for `NULL`.  The
  records `struct proc_table` live in a heap, a list indexed by address whose
  entry is `none` where nothing is allocated; `kfree` clears the entry.
  Reading or freeing through an address that holds no record is undefined and
  reported as `none`, like a failed `KASSERT`.
* The array `pt` is the list of its slots, each a pointer to a record or
  `NULL`.
* The lock `lk_a2` and the condition variables are not modelled; a call of
  `cv_wait` ends the sequential run with the outcome `blocked`.
-/

namespace ProcSyscalls

open Dumbvm

set_option linter.unusedVariables false

/-! ## Constants and records of the kernel headers -/

/-- Modelled from the spec: smallest process id, ids 0 and 1 being reserved
(section 4.3); `PID_MIN` of `limits.h`, which is not among the sources. -/
def PID_MIN : Int := 2

/-- Modelled from the spec: largest process id of the bounded range (section
3); `PID_MAX` of `limits.h`, which is not among the sources; the number is the
OS/161 one. -/
def PID_MAX : Int := 32767

/-- Modelled from the spec: error code for exhaustion of process ids (section
7, no table slot); `ENPROC` of `kern/errno.h`, which is not among the sources;
the number is the OS/161 one. -/
def ENPROC : Int := 12

/-- Modelled from the spec: an error code that `thread_fork` can return when
the execution context cannot be created (section 7); `EAGAIN` of
`kern/errno.h`, which is not among the sources; the number is the OS/161
one. -/
def EAGAIN : Int := 4

/-- Modelled from the spec: error code NO_SUCH_PROCESS (section 7); `ESRCH` of
`kern/errno.h`, which is not among the sources; the number is the OS/161
one. -/
def ESRCH : Int := 15

/-- Modelled from the spec: error code NOT_MY_CHILD (section 7); `ECHILD` of
`kern/errno.h`, which is not among the sources; the number is the OS/161
one. -/
def ECHILD : Int := 16

/-- Modelled from the spec: the status encoding "exited with code N" (section
6); the macro `_MKWAIT_EXIT` of `kern/wait.h`, which is not among the sources:
the code shifted left by two bits, the low bits 0 meaning "exited". -/
def _MKWAIT_EXIT (x : Int) : Int := toInt32 (toU32 (x * 4))

/-- Modelled from the spec: the Process Lifecycle Record of section 3: process
id, parent reference, exit status, exit-occurred flag and back-reference to
the process; `struct proc_table` of `proc.h`, which is not among the sources.
The fields are the ones `proc_syscalls.c` reads and writes. -/
structure proc_table where
  pid : Int
  parent : Option Nat
  exitcode : Int
  exit_status : Bool
  proc : Option Nat
deriving DecidableEq, Repr

/-- Modelled from the spec: the saved user-mode execution context that fork
duplicates (section 4.4); `struct trapframe` of `mips/trapframe.h`, which is
not among the sources, with the OS/161 fields. -/
structure trapframe where
  tf_vaddr : Nat
  tf_status : Nat
  tf_cause : Nat
  tf_lo : Nat
  tf_hi : Nat
  tf_ra : Nat
  tf_at : Nat
  tf_v0 : Nat
  tf_v1 : Nat
  tf_a0 : Nat
  tf_a1 : Nat
  tf_a2 : Nat
  tf_a3 : Nat
  tf_t0 : Nat
  tf_t1 : Nat
  tf_t2 : Nat
  tf_t3 : Nat
  tf_t4 : Nat
  tf_t5 : Nat
  tf_t6 : Nat
  tf_t7 : Nat
  tf_s0 : Nat
  tf_s1 : Nat
  tf_s2 : Nat
  tf_s3 : Nat
  tf_s4 : Nat
  tf_s5 : Nat
  tf_s6 : Nat
  tf_s7 : Nat
  tf_t8 : Nat
  tf_t9 : Nat
  tf_k0 : Nat
  tf_k1 : Nat
  tf_gp : Nat
  tf_sp : Nat
  tf_s8 : Nat
  tf_epc : Nat
deriving DecidableEq, Repr

/-! ## The process table -/

/-- The state `proc_syscalls.c` works on: the heap of records, the array `pt`
(line 23) and the address of the kernel process `kproc`. -/
structure PState where
  /-- The records `struct proc_table`, by address. -/
  heap : List (Option proc_table)
  /-- The slots of the array `pt`. -/
  pt : List (Option Nat)
  /-- The address of the kernel process. -/
  kproc : Nat
deriving DecidableEq, Repr

/-- Reading the record at address `a`. -/
def hread (heap : List (Option proc_table)) (a : Nat) : Option proc_table :=
  match heap[a]? with
  | some (some r) => some r
  | _ => none

/-- Writing the record at address `a`. -/
def hwrite (heap : List (Option proc_table)) (a : Nat) (r : proc_table) :
    List (Option proc_table) :=
  heap.set a (some r)

/-- The call `kfree(a)` on a record: undefined unless a record is allocated
at `a`. -/
def kfree (heap : List (Option proc_table)) (a : Nat) : Option (List (Option proc_table)) :=
  match hread heap a with
  | none => none
  | some _ => some (heap.set a none)

/-- The call `array_set(pt, index, NULL)`; the array asserts that the index is
below its count. -/
def array_set_null (pt : List (Option Nat)) (index : Nat) : Option (List (Option Nat)) :=
  if index < pt.length then some (pt.set index none) else none

/-- Source lines 234-240: the loop of `proc_table_cleanup` that looks for the
slot holding the pointer `p`; `cnt` iterations remain and `i` is the loop
variable. -/
def cleanup_loop (p : Nat) : Nat → Nat → List (Option Nat) → Option (List (Option Nat))
  | 0, _, pt => some pt
  | cnt + 1, i, pt =>
    match pt[i]? with
    | none => none
    | some b =>
      if b = some p then array_set_null pt i
      else cleanup_loop p cnt (i + 1) pt

/-- Source lines 233-242, `proc_table_cleanup`. -/
def proc_table_cleanup (s : PState) (p : Nat) : Option PState :=
  match cleanup_loop p s.pt.length 0 s.pt with
  | none => none
  | some pt2 =>
    match kfree s.heap p with
    | none => none
    | some heap2 => some { s with pt := pt2, heap := heap2 }

/-- Source lines 99-107: the sweep of `sys__exit` over the table; `cnt`
iterations remain and `i` is the loop variable; `curproc` is the address of
the exiting process. -/
def exit_sweep (curproc : Nat) : Nat → Nat → PState → Option PState
  | 0, _, s => some s
  | cnt + 1, i, s =>
    match s.pt[i]? with
    | none => none
    | some none => exit_sweep curproc cnt (i + 1) s
    | some (some a) =>
      match hread s.heap a with
      | none => none
      | some r =>
        if r.parent = some curproc ∧ r.exit_status = true then
          match array_set_null s.pt (toU32 (r.pid - 2)) with
          | none => none
          | some pt2 =>
            match kfree s.heap a with
            | none => none
            | some heap2 => exit_sweep curproc cnt (i + 1) { s with pt := pt2, heap := heap2 }
        else if r.parent = some curproc ∧ r.exit_status = false then
          exit_sweep curproc cnt (i + 1)
            { s with heap := hwrite s.heap a { r with parent := none } }
        else exit_sweep curproc cnt (i + 1) s

/-- Source lines 93-95 of `sys__exit`: the record of the exiting process gets
the encoded exit status, the exited flag, and loses its back-reference. -/
def mark_exited (r : proc_table) (exitcode : Int) : proc_table :=
  { r with exitcode := _MKWAIT_EXIT exitcode, exit_status := true, proc := none }

/-- Source lines 92-116 of `sys__exit`: the part that runs under the lock and
works on the process table.  `curproc` is the address of the exiting process
and `t` the pointer `curproc->t` to its record.  The rest of the function
(lines 121-143: teardown of the address space, `proc_destroy`, `thread_exit`,
which never returns) does not touch the table. -/
def sys__exit (s : PState) (curproc t : Nat) (exitcode : Int) : Option PState :=
  match hread s.heap t with
  | none => none
  | some r =>
    let s0 := { s with heap := hwrite s.heap t (mark_exited r exitcode) }
    match exit_sweep curproc s0.pt.length 0 s0 with
    | none => none
    | some s2 =>
      match hread s2.heap t with
      | none => none
      | some r2 =>
        if r2.parent = none ∨ r2.parent = some s2.kproc then
          match array_set_null s2.pt (toU32 (r2.pid - 2)) with
          | none => none
          | some pt3 =>
            match kfree s2.heap t with
            | none => none
            | some heap3 => some { s2 with pt := pt3, heap := heap3 }
        else some s2

/-- Source lines 150-159, `sys_getpid`: the value stored through `retval`. -/
def sys_getpid (s : PState) (t : Nat) : Option Int :=
  match hread s.heap t with
  | none => none
  | some r => some r.pid

/-- How a call of `sys_waitpid` ends in a sequential run. -/
inductive WaitOutcome where
  /-- The call returns `ret`; `retval` and `status` are the values stored
  through the two out-pointers, when they were stored. -/
  | returned (ret : Int) (retval status : Option Int) (s : PState)
  /-- The child has not exited: the caller sleeps in `cv_wait`. -/
  | blocked (s : PState)
  /-- Undefined behaviour or a kernel panic. -/
  | undefined
deriving DecidableEq, Repr

/-- Source lines 163-229, `sys_waitpid`, called by the process at address
`curproc`.  `copyout_result` is what `copyout` (absent from the sources)
returns for the caller's status pointer: 0 when the status could be stored. -/
def sys_waitpid (s : PState) (curproc : Nat) (pid : Int) (options : Int)
    (copyout_result : Int) : WaitOutcome :=
  if options ≠ 0 then .returned EINVAL none none s
  else if pid > PID_MAX ∨ pid < PID_MIN then .returned ESRCH none none s
  else if sub32 (toU32 pid) 2 ≥ s.pt.length then .returned ESRCH none none s
  else
    match s.pt[toU32 (pid - 2)]? with
    | none => .undefined
    | some none => .returned ECHILD none none s
    | some (some cpt) =>
      match hread s.heap cpt with
      | none => .undefined
      | some r =>
        if r.parent ≠ some curproc then .returned ECHILD none none s
        else if r.exit_status = false then .blocked s
        else
          let exitstatus := r.exitcode
          match proc_table_cleanup s cpt with
          | none => .undefined
          | some s2 =>
            if copyout_result ≠ 0 then .returned copyout_result none none s2
            else .returned 0 (some pid) (some exitstatus) s2

/-- Modelled from the spec: what `proc_create_runprogram` of `proc.c`, which
is not among the sources, hands to `sys_fork`: `NULL` when memory is
exhausted, the value `ENPROC` when no process id is left, or a new process
container at address `newp` whose field `t` points to its record in the
process table (section 4.4, "allocates a new process container"). -/
inductive NewProc where
  | null
  | enproc
  | created (newp t : Nat)
deriving DecidableEq, Repr

/-- What `sys_fork` leaves behind. -/
structure ForkResult where
  /-- The value returned. -/
  ret : Int
  /-- The value stored through `retval`, when it was stored. -/
  retval : Option Int
  /-- The trapframe handed to `thread_fork` for the child, when that call was
  reached. -/
  handed : Option trapframe
  /-- The address space left attached to the new process. -/
  child_as : Option addrspace
  /-- The state of the page allocator. -/
  vm : VM
  /-- The process table. -/
  s : PState
deriving DecidableEq, Repr

/-- Source lines 31-79, `sys_fork`.  `np` is the result of
`proc_create_runprogram` and `s` the process table it leaves; `cur_as` is the
address space of the caller, `tf` its trapframe; `as_kmalloc_ok` and
`tf_kmalloc_ok` tell whether `kmalloc` provides the address-space record and
the trapframe copy, and `thread_fork_result` is what `thread_fork` returns
(all three are absent from the sources).  `proc_destroy` releases the
container and is not modelled. -/
def sys_fork (vm : VM) (s : PState) (cur_as : Option addrspace) (np : NewProc)
    (tf : trapframe) (as_kmalloc_ok tf_kmalloc_ok : Bool) (thread_fork_result : Int) :
    Option ForkResult :=
  match np with
  | .null =>
    some { ret := ENOMEM, retval := none, handed := none, child_as := none, vm := vm, s := s }
  | .enproc =>
    some { ret := ENPROC, retval := none, handed := none, child_as := none, vm := vm, s := s }
  | .created newp t =>
    match cur_as with
    | none => none
    | some old =>
      match as_copy vm old as_kmalloc_ok with
      | none => none
      | some (ret, new_as, vm1) =>
        if ret ≠ 0 then
          match proc_table_cleanup s t with
          | none => none
          | some s1 =>
            some { ret := ret, retval := none, handed := none, child_as := new_as,
                   vm := vm1, s := s1 }
        else
          match new_as with
          | none => none
          | some nas =>
            if tf_kmalloc_ok = false then
              match as_destroy vm1 nas with
              | none => none
              | some vm2 =>
                match proc_table_cleanup s t with
                | none => none
                | some s1 =>
                  some { ret := ENOMEM, retval := none, handed := none, child_as := none,
                         vm := vm2, s := s1 }
            else
              let ntf := { tf with tf_v0 := 0, tf_epc := add32 tf.tf_epc 4 }
              if thread_fork_result ≠ 0 then
                match as_destroy vm1 nas with
                | none => none
                | some vm2 =>
                  match proc_table_cleanup s t with
                  | none => none
                  | some s1 =>
                    some { ret := thread_fork_result, retval := none, handed := some ntf,
                           child_as := none, vm := vm2, s := s1 }
              else
                match hread s.heap t with
                | none => none
                | some r =>
                  some { ret := 0, retval := some r.pid, handed := some ntf,
                         child_as := some nas, vm := vm1, s := s }

/-- Well-formedness of the process table (section 3): every occupied slot
`i` points to an allocated record whose process id is `i + 2`, and the count
of slots is a machine word. -/
def TableWF (s : PState) : Prop :=
  s.pt.length < WORD ∧
  ∀ (i a : Nat), s.pt[i]? = some (some a) →
    ∃ r, hread s.heap a = some r ∧ r.pid = (i : Int) + 2

/-- What the sweep of `sys__exit` by the process at address `curproc` makes of
a record `r`: an exited child is released (`none`), a running child loses its
parent reference, any other record is kept as it is. -/
def after_sweep (curproc : Nat) (r : proc_table) : Option proc_table :=
  if r.parent = some curproc ∧ r.exit_status = true then none
  else if r.parent = some curproc then some { r with parent := none }
  else some r

/-- The record at address `t`, which sat in slot `k` of the table of `s`, is
gone in `s2`: no slot points to it, slot `k` is empty, its memory is released,
and every other slot and every other record is as in `s`. -/
def RecordRemoved (s s2 : PState) (t k : Nat) : Prop :=
  (∀ j : Nat, s2.pt[j]? ≠ some (some t)) ∧ s2.pt[k]? = some none ∧
  (∀ j : Nat, j ≠ k → s2.pt[j]? = s.pt[j]?) ∧
  (∀ a : Nat, a ≠ t → hread s2.heap a = hread s.heap a) ∧
  hread s2.heap t = none ∧ s2.kproc = s.kproc

/-- A machine used as a concrete input: 32 frames from physical address
`0x1000`, as `vm_bootstrap` leaves them: frame 0 holds the coremap. -/
def vm32 : VM :=
  { first := 0x1000, last := 0x21000, total_num_page := 32, vm_booted := true,
    coremap := 1 :: List.replicate 31 0,
    size_coremap := 128, coremap_pg := 1, ram_firstpaddr := 0, ram_lastpaddr := 0 }

/-- A trapframe used as a concrete input. -/
def tf_sample : trapframe :=
  { tf_vaddr := 0, tf_status := 0xff13, tf_cause := 0x20, tf_lo := 0, tf_hi := 0,
    tf_ra := 0x400120, tf_at := 0, tf_v0 := 0, tf_v1 := 0,
    tf_a0 := 0, tf_a1 := 0, tf_a2 := 0, tf_a3 := 0,
    tf_t0 := 0, tf_t1 := 0, tf_t2 := 0, tf_t3 := 0, tf_t4 := 0, tf_t5 := 0, tf_t6 := 0,
    tf_t7 := 0, tf_s0 := 0, tf_s1 := 0, tf_s2 := 0, tf_s3 := 0, tf_s4 := 0, tf_s5 := 0,
    tf_s6 := 0, tf_s7 := 0, tf_t8 := 0, tf_t9 := 0, tf_k0 := 0, tf_k1 := 0,
    tf_gp := 0x10008000, tf_sp := 0x7fffff00, tf_s8 := 0, tf_epc := 0x400100 }

/-- A process table used as a concrete input: the kernel process is at
address 1; the record at heap address 1 (slot 0, pid 2) belongs to the
process at address 100, a child of the kernel process; the record at heap
address 2 (slot 1, pid 3) belongs to the process at address 200, a running
child of process 100; the record at heap address 3 (slot 2, pid 4) belongs to
an exited child of process 100, with exit code 5. -/
def pstate_sample : PState :=
  { heap := [none,
      some { pid := 2, parent := some 1, exitcode := 0, exit_status := false, proc := some 100 },
      some { pid := 3, parent := some 100, exitcode := 0, exit_status := false,
             proc := some 200 },
      some { pid := 4, parent := some 100, exitcode := 20, exit_status := true,
             proc := none }],
    pt := [some 1, some 2, some 3],
    kproc := 1 }

/-- The process table `pstate_sample` after `proc_create_runprogram` has
created a container for a child of process 100: its record is at heap address
4, in slot 3, with pid 5. -/
def pstate_forked : PState :=
  { heap := pstate_sample.heap ++
      [some { pid := 5, parent := some 100, exitcode := 0, exit_status := false,
              proc := some 300 }],
    pt := pstate_sample.pt ++ [some 4],
    kproc := 1 }

/-- The address space `as_copy` builds on `vm32` from `as_sample 0x500000`. -/
def as_copied : addrspace :=
  { as_vbase1 := 0x400000, as_pbase1 := 0x2000, as_npages1 := 1,
    as_vbase2 := 0x500000, as_pbase2 := 0x3000, as_npages2 := 1,
    as_stackpbase := 0x4000, flag := false }

/-- The allocator state `as_copy` leaves on `vm32`: one frame for each
segment and twelve for the stack. -/
def vm32_copied : VM :=
  { vm32 with coremap := [1, 1, 1, 12] ++ List.replicate 11 (-12) ++ List.replicate 17 0 }

end ProcSyscalls

namespace Dumbvm

set_option linter.unusedVariables false

/-! ## Lemmas on the loops of the allocator -/

theorem lt_length_of_cell {cm : List Int} {j : Nat} {c : Int}
    (h : cm[j]? = some c) : j < cm.length := by
  by_contra hc
  rw [List.getElem?_eq_none (Nat.le_of_not_lt hc)] at h
  exact Option.noConfusion h

/-- A successful inner scan stayed inside the array and saw only free cells. -/
theorem run_is_free_true (cm : List Int) (i : Nat) (hlen : cm.length < WORD) :
    ∀ (cnt a : Nat), a + i ≤ cm.length → run_is_free cm i cnt a = some true →
      a + i + cnt ≤ cm.length ∧ ∀ k, k < cnt → cm[a + i + k]? = some 0 := by
  intro cnt
  induction cnt with
  | zero => intro a ha _; exact ⟨ha, fun k hk => absurd hk (Nat.not_lt_zero k)⟩
  | succ cnt ih =>
    intro a ha h
    have hmod : (a + i) % WORD = a + i := Nat.mod_eq_of_lt (by omega)
    rw [run_is_free, hmod] at h
    cases hc : cm[a + i]? with
    | none => rw [hc] at h; exact Option.noConfusion h
    | some c =>
      rw [hc] at h
      have hlt := lt_length_of_cell hc
      by_cases hz : c = 0
      · subst hz
        simp only [ne_eq, not_true_eq_false, if_false] at h
        have := ih (a + 1) (by omega) h
        refine ⟨by omega, ?_⟩
        intro k hk
        cases k with
        | zero => simpa using hc
        | succ k =>
          have h2 := this.2 k (by omega)
          have e : a + i + (k + 1) = a + 1 + i + k := by omega
          rw [e]; exact h2
      · simp only [ne_eq, hz, not_false_eq_true, if_true] at h
        exact absurd (Option.some.inj h) (by decide)

/-- Marking a run that lies inside the array succeeds and writes exactly the
cells of the run. -/
theorem mark_run_spec (n : Int) (i : Nat) :
    ∀ (cnt a : Nat) (cm : List Int), cm.length < WORD → a + i + cnt ≤ cm.length →
      ∃ cm2, mark_run n i cnt a cm = some cm2 ∧ cm2.length = cm.length ∧
        ∀ j, cm2[j]? = if a + i ≤ j ∧ j < a + i + cnt then some (0 - n) else cm[j]? := by
  intro cnt
  induction cnt with
  | zero =>
    intro a cm _ _
    refine ⟨cm, rfl, rfl, ?_⟩
    intro j
    have : ¬ (a + i ≤ j ∧ j < a + i + 0) := by omega
    rw [if_neg this]
  | succ cnt ih =>
    intro a cm hlen hle
    have hmod : (a + i) % WORD = a + i := Nat.mod_eq_of_lt (by omega)
    have hlt : a + i < cm.length := by omega
    obtain ⟨cm2, h1, h2, h3⟩ := ih (a + 1) (cm.set (a + i) (0 - n))
      (by rw [List.length_set]; exact hlen) (by rw [List.length_set]; omega)
    refine ⟨cm2, ?_, ?_, ?_⟩
    · rw [mark_run, hmod, if_pos hlt]; exact h1
    · rw [h2, List.length_set]
    · intro j
      rw [h3 j, List.getElem?_set]
      by_cases hj : a + i = j
      · subst hj
        simp only [if_pos hlt, if_true]
        have c1 : ¬ (a + 1 + i ≤ a + i ∧ a + i < a + 1 + i + cnt) := by omega
        have c2 : (a + i ≤ a + i ∧ a + i < a + i + (cnt + 1)) := by omega
        rw [if_neg c1, if_pos c2]
      · rw [if_neg hj]
        by_cases hr : a + 1 + i ≤ j ∧ j < a + 1 + i + cnt
        · have c2 : (a + i ≤ j ∧ j < a + i + (cnt + 1)) := by omega
          rw [if_pos hr, if_pos c2]
        · have c2 : ¬ (a + i ≤ j ∧ j < a + i + (cnt + 1)) := by omega
          rw [if_neg hr, if_neg c2]

/-- Clearing a run that lies inside the array succeeds and writes exactly the
cells of the run. -/
theorem free_loop_spec :
    ∀ (cnt i : Nat) (cm : List Int), i + cnt ≤ cm.length →
      ∃ cm2, free_loop cnt i cm = some cm2 ∧ cm2.length = cm.length ∧
        ∀ j, cm2[j]? = if i ≤ j ∧ j < i + cnt then some 0 else cm[j]? := by
  intro cnt
  induction cnt with
  | zero =>
    intro i cm _
    refine ⟨cm, rfl, rfl, ?_⟩
    intro j
    have : ¬ (i ≤ j ∧ j < i + 0) := by omega
    rw [if_neg this]
  | succ cnt ih =>
    intro i cm hle
    have hlt : i < cm.length := by omega
    obtain ⟨cm2, h1, h2, h3⟩ := ih (i + 1) (cm.set i 0) (by rw [List.length_set]; omega)
    refine ⟨cm2, ?_, ?_, ?_⟩
    · rw [free_loop, if_pos hlt]; exact h1
    · rw [h2, List.length_set]
    · intro j
      rw [h3 j, List.getElem?_set]
      by_cases hj : i = j
      · subst hj
        simp only [if_pos hlt, if_true]
        have c1 : ¬ (i + 1 ≤ i ∧ i < i + 1 + cnt) := by omega
        have c2 : (i ≤ i ∧ i < i + (cnt + 1)) := by omega
        rw [if_neg c1, if_pos c2]
      · rw [if_neg hj]
        by_cases hr : i + 1 ≤ j ∧ j < i + 1 + cnt
        · have c2 : (i ≤ j ∧ j < i + (cnt + 1)) := by omega
          rw [if_pos hr, if_pos c2]
        · have c2 : ¬ (i ≤ j ∧ j < i + (cnt + 1)) := by omega
          rw [if_neg hr, if_neg c2]


/-- An inner scan that gave up met a cell that is not free. -/
theorem run_is_free_false (cm : List Int) (i : Nat) (hlen : cm.length < WORD) :
    ∀ (cnt a : Nat), a + i ≤ cm.length → run_is_free cm i cnt a = some false →
      ∃ k c, k < cnt ∧ cm[a + i + k]? = some c ∧ c ≠ 0 := by
  intro cnt
  induction cnt with
  | zero => intro a _ h; exact absurd (Option.some.inj h) (by decide)
  | succ cnt ih =>
    intro a ha h
    have hmod : (a + i) % WORD = a + i := Nat.mod_eq_of_lt (by omega)
    rw [run_is_free, hmod] at h
    cases hc : cm[a + i]? with
    | none => rw [hc] at h; exact Option.noConfusion h
    | some c =>
      rw [hc] at h
      have hlt := lt_length_of_cell hc
      by_cases hz : c = 0
      · subst hz
        simp only [ne_eq, not_true_eq_false, if_false] at h
        obtain ⟨k, c, hk, h2, h3⟩ := ih (a + 1) (by omega) h
        refine ⟨k + 1, c, by omega, ?_, h3⟩
        have e : a + i + (k + 1) = a + 1 + i + k := by omega
        rw [e]; exact h2
      · exact ⟨0, c, by omega, by simpa using hc, hz⟩

/-- What the scan of `alloc_kpages` does: it either runs out of candidate
indices, having met no free run, and returns 0 with the state untouched, or
allocates at the first candidate index that heads a free run. -/
theorem alloc_scan_spec (vm : VM) (n : Nat) (hn : 1 ≤ n) (hlen : vm.coremap.length < WORD) :
    ∀ (fuel i addr : Nat) (vm2 : VM), alloc_scan vm (n : Int) fuel i = some (addr, vm2) →
      (addr = 0 ∧ vm2 = vm ∧ ∀ j, i ≤ j → j < i + fuel → ¬ FreeRun vm.coremap j n) ∨
      (∃ j, i ≤ j ∧ j < i + fuel ∧ (∀ j2, i ≤ j2 → j2 < j → ¬ FreeRun vm.coremap j2 n) ∧
        AllocatedAt vm vm2 n j addr) := by
  have hcnt : ((n : Int) - 1).toNat = n - 1 := by omega
  intro fuel
  induction fuel with
  | zero =>
    intro i addr vm2 h
    rw [alloc_scan] at h
    have h2 := Option.some.inj h
    left
    refine ⟨(Prod.mk.inj h2).1.symm, (Prod.mk.inj h2).2.symm, ?_⟩
    intro j h1 h2; omega
  | succ fuel ih =>
    intro i addr vm2 h
    rw [alloc_scan] at h
    -- a step that moves on to the next index
    have next : ¬ FreeRun vm.coremap i n → alloc_scan vm (n : Int) fuel (i + 1) = some (addr, vm2) →
        (addr = 0 ∧ vm2 = vm ∧ ∀ j, i ≤ j → j < i + (fuel + 1) → ¬ FreeRun vm.coremap j n) ∨
        (∃ j, i ≤ j ∧ j < i + (fuel + 1) ∧ (∀ j2, i ≤ j2 → j2 < j → ¬ FreeRun vm.coremap j2 n) ∧
          AllocatedAt vm vm2 n j addr) := by
      intro hnot hrec
      rcases ih (i + 1) addr vm2 hrec with ⟨h1, h2, h3⟩ | ⟨j, h1, h2, h3, h4⟩
      · left
        refine ⟨h1, h2, ?_⟩
        intro j hj1 hj2
        by_cases e : j = i
        · subst e; exact hnot
        · exact h3 j (by omega) (by omega)
      · right
        refine ⟨j, by omega, by omega, ?_, h4⟩
        intro j2 hj1 hj2
        by_cases e : j2 = i
        · subst e; exact hnot
        · exact h3 j2 (by omega) hj2
    cases hc : vm.coremap[i]? with
    | none => rw [hc] at h; exact Option.noConfusion h
    | some c =>
      rw [hc] at h
      have hlt := lt_length_of_cell hc
      by_cases hz : c = 0
      · subst hz
        simp only [if_true] at h
        rw [hcnt] at h
        cases hr : run_is_free vm.coremap i (n - 1) 1 with
        | none => rw [hr] at h; exact Option.noConfusion h
        | some b =>
          rw [hr] at h
          cases b with
          | false =>
            simp only at h
            apply next _ h
            obtain ⟨k, c, hk, h2, h3⟩ := run_is_free_false vm.coremap i hlen (n - 1) 1 (by omega) hr
            intro hfree
            have := hfree (k + 1) (by omega)
            have e : 1 + i + k = i + (k + 1) := by omega
            rw [e, this] at h2
            exact h3 (Option.some.inj h2).symm
          | true =>
            simp only at h
            obtain ⟨hle, hfree⟩ := run_is_free_true vm.coremap i hlen (n - 1) 1 (by omega) hr
            obtain ⟨cm2, hm1, hm2, hm3⟩ := mark_run_spec (n : Int) i (n - 1) 1
              (vm.coremap.set i (n : Int)) (by rw [List.length_set]; exact hlen)
              (by rw [List.length_set]; omega)
            rw [hm1] at h
            simp only at h
            have h2 := Prod.mk.inj (Option.some.inj h)
            right
            refine ⟨i, le_refl i, by omega, fun j2 h1 h2 => by omega, ?_⟩
            refine ⟨by omega, ?_, ?_, ?_, ?_, h2.1.symm⟩
            · intro k hk
              cases k with
              | zero => simpa using hc
              | succ k =>
                have := hfree k (by omega)
                have e : i + (k + 1) = 1 + i + k := by omega
                rw [e]; exact this
            · rw [← h2.2]
            · rw [← h2.2]; simp only; rw [hm2, List.length_set]
            · intro j
              rw [← h2.2]; simp only
              rw [hm3 j, List.getElem?_set]
              by_cases e : j = i
              · subst e
                have c1 : ¬ (1 + j ≤ j ∧ j < 1 + j + (n - 1)) := by omega
                rw [if_neg c1]; simp only [if_true, if_pos hlt]
              · have e2 : ¬ i = j := fun h => e h.symm
                rw [if_neg e, if_neg e2]
                by_cases hr2 : i < j ∧ j < i + n
                · have c1 : (1 + i ≤ j ∧ j < 1 + i + (n - 1)) := by omega
                  rw [if_pos hr2, if_pos c1]; simp
                · have c1 : ¬ (1 + i ≤ j ∧ j < 1 + i + (n - 1)) := by omega
                  rw [if_neg hr2, if_neg c1]
      · simp only [hz, if_false] at h
        apply next _ h
        intro hfree
        have := hfree 0 hn
        simp only [Nat.add_zero] at this
        rw [hc] at this
        exact hz (Option.some.inj this)


theorem Booted.length_lt {vm : VM} (hb : Booted vm) : vm.coremap.length * PAGE_SIZE < WORD := by
  obtain ⟨_, _, _, h4, h5⟩ := hb
  rw [h5, h4]
  unfold sub32 PAGE_SIZE WORD
  omega

/-- The address computed for frame `i` at source line 152, and the index
`free_kpages` recovers from it at lines 179-180. -/
theorem frame_address (first i : Nat) (hf : first < WORD) (hi : i * PAGE_SIZE < WORD) :
    PADDR_TO_KVADDR (add32 ((i * PAGE_SIZE) % WORD) first)
        = (MIPS_KSEG0 + first + i * PAGE_SIZE) % WORD ∧
    sub32 (sub32 (PADDR_TO_KVADDR (add32 ((i * PAGE_SIZE) % WORD) first)) MIPS_KSEG0) first
        / PAGE_SIZE = i := by
  unfold PADDR_TO_KVADDR add32 sub32 MIPS_KSEG0 PAGE_SIZE WORD at *
  omega

/-- Unfolding of `alloc_kpages` on a booted allocator. -/
theorem alloc_kpages_booted (vm : VM) (npages : Int) (hb : vm.vm_booted = true) :
    alloc_kpages vm npages
      = alloc_scan vm npages (toU32 ((vm.total_num_page : Int) - npages)) 0 := by
  unfold alloc_kpages
  rw [hb]
  simp

/-- C1: on a booted allocator, when `alloc_kpages n` with `n ≥ 1` succeeds
(returns a non-zero address), there is a frame index `i` whose run
`i .. i+n-1` lies in the coremap and was entirely free before the call (so it
overlaps no allocated run); afterwards cell `i` holds `n`, cells
`i+1 .. i+n-1` hold `-n`, every other cell and every other part of the state
is unchanged, and the address returned is `KSEG0 + first + i * PAGE_SIZE` (as a
32-bit value, and exactly so when physical memory ends below `KSEG0`). -/
theorem alloc_kpages_success (vm vm2 : VM) (n addr : Nat) (hb : Booted vm) (hn : 1 ≤ n)
    (h : alloc_kpages vm (n : Int) = some (addr, vm2)) (hs : addr ≠ 0) :
    ∃ i, i + n ≤ vm.total_num_page ∧
      (∀ k, k < n → vm.coremap[i + k]? = some 0) ∧
      vm2.coremap[i]? = some (n : Int) ∧
      (∀ k, 1 ≤ k → k < n → vm2.coremap[i + k]? = some (-(n : Int))) ∧
      (∀ j, j < i ∨ i + n ≤ j → vm2.coremap[j]? = vm.coremap[j]?) ∧
      vm2.coremap.length = vm.coremap.length ∧
      vm2 = { vm with coremap := vm2.coremap } ∧
      addr = (MIPS_KSEG0 + vm.first + i * PAGE_SIZE) % WORD ∧
      (vm.first ≤ vm.last → vm.last ≤ MIPS_KSEG0 →
        addr = MIPS_KSEG0 + vm.first + i * PAGE_SIZE) := by
  have hlen := hb.length_lt
  have hlen2 : vm.coremap.length < WORD := by unfold PAGE_SIZE at hlen; omega
  rw [alloc_kpages_booted vm _ hb.1] at h
  rcases alloc_scan_spec vm n hn hlen2 _ _ _ _ h with ⟨h0, _⟩ | ⟨i, _, _, _, h1, h2, h3, h4, h5, h6⟩
  · exact absurd h0 hs
  · have hi : i * PAGE_SIZE < WORD := by unfold PAGE_SIZE at *; omega
    have ha := (frame_address vm.first i hb.2.1 hi).1
    refine ⟨i, by rw [← hb.2.2.2.2]; exact h1, h2, ?_, ?_, ?_, h4, h3, by rw [h6, ha], ?_⟩
    · rw [h5 i, if_pos rfl]
    · intro k hk1 hk2
      rw [h5 (i + k), if_neg (by omega), if_pos (by omega)]
    · intro j hj
      rw [h5 j, if_neg (by omega), if_neg (by omega)]
    · intro hfl hl
      rw [h6, ha]
      have ht := hb.2.2.2.1
      have hl5 := hb.2.2.2.2
      have hlast := hb.2.2.1
      rw [hl5, ht] at h1
      unfold sub32 MIPS_KSEG0 PAGE_SIZE WORD at *
      omega

theorem alloc_kpages_success_witness :
    ∃ i, i + 2 ≤ (vm4 [1, 0, 0, 0]).total_num_page ∧
      (∀ k, k < 2 → (vm4 [1, 0, 0, 0]).coremap[i + k]? = some 0) ∧
      (vm4 [1, 2, -2, 0]).coremap[i]? = some ((2 : Nat) : Int) ∧
      (∀ k, 1 ≤ k → k < 2 → (vm4 [1, 2, -2, 0]).coremap[i + k]? = some (-((2 : Nat) : Int))) ∧
      (∀ j, j < i ∨ i + 2 ≤ j → (vm4 [1, 2, -2, 0]).coremap[j]? = (vm4 [1, 0, 0, 0]).coremap[j]?) ∧
      (vm4 [1, 2, -2, 0]).coremap.length = (vm4 [1, 0, 0, 0]).coremap.length ∧
      vm4 [1, 2, -2, 0] = { vm4 [1, 0, 0, 0] with coremap := (vm4 [1, 2, -2, 0]).coremap } ∧
      2147491840 = (MIPS_KSEG0 + (vm4 [1, 0, 0, 0]).first + i * PAGE_SIZE) % WORD ∧
      ((vm4 [1, 0, 0, 0]).first ≤ (vm4 [1, 0, 0, 0]).last → (vm4 [1, 0, 0, 0]).last ≤ MIPS_KSEG0 →
        2147491840 = MIPS_KSEG0 + (vm4 [1, 0, 0, 0]).first + i * PAGE_SIZE) :=
  alloc_kpages_success (vm4 [1, 0, 0, 0]) (vm4 [1, 2, -2, 0]) 2 2147491840
    (by decide) (by decide) (by decide) (by decide)

/-- Unfolding of `free_kpages` when the head cell is read and the clearing
loop stays inside the array. -/
theorem free_kpages_of (vm : VM) (addr : Nat) (a : Int) (cm : List Int)
    (h1 : vm.coremap[sub32 (sub32 addr MIPS_KSEG0) vm.first / PAGE_SIZE]? = some a)
    (h2 : free_loop a.toNat (sub32 (sub32 addr MIPS_KSEG0) vm.first / PAGE_SIZE) vm.coremap
      = some cm) :
    free_kpages vm addr = some { vm with coremap := cm } := by
  unfold free_kpages
  simp only [h1, h2]

/-- C4: round trip.  On a booted allocator, when `alloc_kpages n` with `n ≥ 1`
succeeds with address `a`, an immediately following `free_kpages a` returns
and yields exactly the state before the allocation; it clears the `n` cells of
the allocated run (which were non-zero after the allocation) and touches no
other cell. -/
theorem alloc_free_roundtrip (vm vm2 : VM) (n addr : Nat) (hb : Booted vm) (hn : 1 ≤ n)
    (h : alloc_kpages vm (n : Int) = some (addr, vm2)) (hs : addr ≠ 0) :
    free_kpages vm2 addr = some vm ∧
    ∃ i, i + n ≤ vm.total_num_page ∧
      addr = (MIPS_KSEG0 + vm.first + i * PAGE_SIZE) % WORD ∧
      (∀ k, k < n → vm2.coremap[i + k]? ≠ some 0 ∧ vm.coremap[i + k]? = some 0) ∧
      (∀ j, j < i ∨ i + n ≤ j → vm.coremap[j]? = vm2.coremap[j]?) := by
  have hlen := hb.length_lt
  have hlen2 : vm.coremap.length < WORD := by unfold PAGE_SIZE at hlen; omega
  rw [alloc_kpages_booted vm _ hb.1] at h
  rcases alloc_scan_spec vm n hn hlen2 _ _ _ _ h with ⟨h0, _⟩ | ⟨i, _, _, _, h1, h2, h3, h4, h5, h6⟩
  · exact absurd h0 hs
  · have hi : i * PAGE_SIZE < WORD := by unfold PAGE_SIZE at *; omega
    obtain ⟨ha, hidx⟩ := frame_address vm.first i hb.2.1 hi
    have hfirst : vm2.first = vm.first := by rw [h3]
    obtain ⟨cm3, hf1, hf2, hf3⟩ := free_loop_spec n i vm2.coremap (by rw [h4]; exact h1)
    have hcm : cm3 = vm.coremap := by
      apply List.ext_getElem?
      intro j
      rw [hf3 j, h5 j]
      by_cases hr : i ≤ j ∧ j < i + n
      · rw [if_pos hr]
        have := h2 (j - i) (by omega)
        have e : i + (j - i) = j := by omega
        rw [e] at this
        exact this.symm
      · rw [if_neg hr, if_neg (by omega), if_neg (by omega)]
    constructor
    · have hhead : vm2.coremap[sub32 (sub32 addr MIPS_KSEG0) vm2.first / PAGE_SIZE]?
          = some (n : Int) := by
        rw [hfirst, h6, hidx, h5 i, if_pos rfl]
      have hloop : free_loop (n : Int).toNat
          (sub32 (sub32 addr MIPS_KSEG0) vm2.first / PAGE_SIZE) vm2.coremap = some cm3 := by
        rw [hfirst, h6, hidx, Int.toNat_ofNat]; exact hf1
      rw [free_kpages_of vm2 addr _ _ hhead hloop, hcm, h3]
    · refine ⟨i, by rw [← hb.2.2.2.2]; exact h1, by rw [h6, ha], ?_, ?_⟩
      · intro k hk
        refine ⟨?_, h2 k hk⟩
        rw [h5 (i + k)]
        by_cases e : k = 0
        · subst e
          rw [if_pos (Nat.add_zero i)]
          intro hc
          have := Option.some.inj hc
          omega
        · rw [if_neg (by omega), if_pos (by omega)]
          intro hc
          have := Option.some.inj hc
          omega
      · intro j hj
        rw [h5 j, if_neg (by omega), if_neg (by omega)]

theorem alloc_free_roundtrip_witness :
    free_kpages (vm4 [1, 2, -2, 0]) 2147491840 = some (vm4 [1, 0, 0, 0]) ∧
    ∃ i, i + 2 ≤ (vm4 [1, 0, 0, 0]).total_num_page ∧
      2147491840 = (MIPS_KSEG0 + (vm4 [1, 0, 0, 0]).first + i * PAGE_SIZE) % WORD ∧
      (∀ k, k < 2 → (vm4 [1, 2, -2, 0]).coremap[i + k]? ≠ some 0 ∧
        (vm4 [1, 0, 0, 0]).coremap[i + k]? = some 0) ∧
      (∀ j, j < i ∨ i + 2 ≤ j → (vm4 [1, 0, 0, 0]).coremap[j]? = (vm4 [1, 2, -2, 0]).coremap[j]?) :=
  alloc_free_roundtrip (vm4 [1, 0, 0, 0]) (vm4 [1, 2, -2, 0]) 2 2147491840
    (by decide) (by decide) (by decide) (by decide)

/-! ## Page arithmetic -/

/-- Masking with `PAGE_FRAME` rounds a 32-bit word down to a multiple of the
page size. -/
theorem and_PAGE_FRAME (x : Nat) : x &&& PAGE_FRAME = x % WORD / PAGE_SIZE * PAGE_SIZE := by
  have e1 : PAGE_FRAME = (2 ^ 20 - 1) <<< 12 := by decide
  have e2 : x % WORD / PAGE_SIZE * PAGE_SIZE = ((x % 2 ^ 32) >>> 12) <<< 12 := by
    rw [Nat.shiftLeft_eq, Nat.shiftRight_eq_div_pow]; unfold WORD PAGE_SIZE; norm_num
  rw [e1, e2]
  apply Nat.eq_of_testBit_eq
  intro i
  rw [Nat.testBit_and, Nat.testBit_shiftLeft, Nat.testBit_shiftLeft, Nat.testBit_shiftRight,
    Nat.testBit_two_pow_sub_one, Nat.testBit_mod_two_pow]
  by_cases h : 12 ≤ i
  · have e : 12 + (i - 12) = i := by omega
    rw [e]
    by_cases h2 : i < 32
    · have h3 : i - 12 < 20 := by omega
      simp [h, h2, h3]
    · have h3 : ¬ i - 12 < 20 := by omega
      simp [h, h2, h3]
  · simp [h]

/-- Masking with the complement of `PAGE_FRAME` keeps the offset in the page. -/
theorem and_not_PAGE_FRAME (x : Nat) : x &&& not32 PAGE_FRAME = x % PAGE_SIZE := by
  have e : not32 PAGE_FRAME = 2 ^ 12 - 1 := by decide
  rw [e, Nat.and_pow_two_sub_one_eq_mod]
  rfl

/-- A word passes the alignment assertions of `vm_fault` exactly when it is a
32-bit multiple of the page size. -/
theorem aligned_iff (x : Nat) : x &&& PAGE_FRAME = x ↔ x < WORD ∧ x % PAGE_SIZE = 0 := by
  rw [and_PAGE_FRAME]
  unfold WORD PAGE_SIZE
  omega

theorem stackbase_eq : stackbase = 2147434496 := by decide

/-- The physical page field of the installed low word is the physical address
computed for the page. -/
theorem fault_elo_frame (as : addrspace) (page paddr : Nat)
    (h : paddr &&& PAGE_FRAME = paddr) : fault_elo as page paddr &&& PAGE_FRAME = paddr := by
  have a1 : PAGE_FRAME &&& TLBLO_DIRTY = 0 := by decide
  have a2 : PAGE_FRAME &&& TLBLO_VALID = 0 := by decide
  have a3 : not32 TLBLO_DIRTY &&& PAGE_FRAME = PAGE_FRAME := by decide
  have key : (paddr ||| TLBLO_DIRTY ||| TLBLO_VALID) &&& PAGE_FRAME = paddr := by
    rw [Nat.and_comm, Nat.and_or_distrib_left, Nat.and_or_distrib_left, a1, a2,
      Nat.or_zero, Nat.or_zero, Nat.and_comm, h]
  unfold fault_elo
  simp only
  split
  · rw [Nat.and_assoc, a3]; exact key
  · exact key

/-! ## `as_define_region` -/

/-- The base stored by `as_define_region` is `vaddr` rounded down to a page. -/
theorem region_base_eq (vaddr : Nat) (h : vaddr < WORD) :
    region_base vaddr = vaddr - vaddr % PAGE_SIZE := by
  unfold region_base
  rw [and_PAGE_FRAME]
  unfold WORD PAGE_SIZE at *
  omega

/-- The page count stored by `as_define_region`, when nothing overflows. -/
theorem region_npages_eq (vaddr sz : Nat) (h : vaddr + sz + PAGE_SIZE < WORD) :
    region_npages vaddr sz = (sz + vaddr % PAGE_SIZE + PAGE_SIZE - 1) / PAGE_SIZE := by
  unfold region_npages
  simp only
  rw [and_PAGE_FRAME, and_not_PAGE_FRAME]
  unfold add32 sub32 WORD PAGE_SIZE at *
  omega

/-- C5 (as stated, refuted): a first region whose rounded base is page 0
leaves segment 1 looking unset; the second call then binds segment 1 again
and not segment 2, and the third call succeeds instead of returning EUNIMP. -/
theorem as_define_region_page_zero :
    (as_define_region as_create 0 4096 1 1 1).1 = 0 ∧
    (as_define_region (as_define_region as_create 0 4096 1 1 1).2 0x400000 4096 1 1 1).2.as_vbase2
      = 0 ∧
    (as_define_region (as_define_region (as_define_region as_create 0 4096 1 1 1).2
      0x400000 4096 1 1 1).2 0x500000 4096 1 1 1).1 = 0 ∧
    (as_define_region (as_define_region (as_define_region as_create 0 4096 1 1 1).2
      0x400000 4096 1 1 1).2 0x500000 4096 1 1 1).1 ≠ EUNIMP ∧
    (as_define_region (as_define_region (as_define_region as_create 0 4096 1 1 1).2
      0x400000 4096 1 1 1).2 0x500000 4096 1 1 1).2
      ≠ (as_define_region (as_define_region as_create 0 4096 1 1 1).2 0x400000 4096 1 1 1).2 := by
  decide

/-- C5 (amended): on an address space fresh from `as_create`, three successive
`as_define_region` calls whose first two addresses are not in page 0
(`vaddr ≥ PAGE_SIZE`): the first returns 0 and sets only `as_vbase1` and
`as_npages1`, the second returns 0 and sets only `as_vbase2` and `as_npages2`
(segment 1 stays as the first call set it), the third returns EUNIMP and leaves
the address space unchanged. -/
theorem as_define_region_three_calls (v1 s1 v2 s2 v3 s3 : Nat)
    (r1 w1 x1 r2 w2 x2 r3 w3 x3 : Int)
    (hv1 : v1 < WORD) (h1 : PAGE_SIZE ≤ v1) (hv2 : v2 < WORD) (h2 : PAGE_SIZE ≤ v2) :
    as_define_region as_create v1 s1 r1 w1 x1
      = (0, { as_create with as_vbase1 := region_base v1,
                             as_npages1 := region_npages v1 s1 }) ∧
    as_define_region (as_define_region as_create v1 s1 r1 w1 x1).2 v2 s2 r2 w2 x2
      = (0, { (as_define_region as_create v1 s1 r1 w1 x1).2 with
                as_vbase2 := region_base v2, as_npages2 := region_npages v2 s2 }) ∧
    as_define_region
        (as_define_region (as_define_region as_create v1 s1 r1 w1 x1).2 v2 s2 r2 w2 x2).2
        v3 s3 r3 w3 x3
      = (EUNIMP,
         (as_define_region (as_define_region as_create v1 s1 r1 w1 x1).2 v2 s2 r2 w2 x2).2) := by
  have b1 : region_base v1 ≠ 0 := by
    rw [region_base_eq v1 hv1]; unfold PAGE_SIZE at *; omega
  have b2 : region_base v2 ≠ 0 := by
    rw [region_base_eq v2 hv2]; unfold PAGE_SIZE at *; omega
  have c1 : as_define_region as_create v1 s1 r1 w1 x1
      = (0, { as_create with as_vbase1 := region_base v1,
                             as_npages1 := region_npages v1 s1 }) := by
    simp [as_define_region, as_create]
  have c2 : as_define_region (as_define_region as_create v1 s1 r1 w1 x1).2 v2 s2 r2 w2 x2
      = (0, { (as_define_region as_create v1 s1 r1 w1 x1).2 with
                as_vbase2 := region_base v2, as_npages2 := region_npages v2 s2 }) := by
    rw [c1]
    simp [as_define_region, as_create, b1]
  refine ⟨c1, c2, ?_⟩
  rw [c2, c1]
  simp [as_define_region, as_create, b1, b2]

theorem as_define_region_three_calls_witness :
    as_define_region as_create 0x400000 4096 1 0 1
      = (0, { as_create with as_vbase1 := region_base 0x400000,
                             as_npages1 := region_npages 0x400000 4096 }) ∧
    as_define_region (as_define_region as_create 0x400000 4096 1 0 1).2 0x10000000 8192 1 1 0
      = (0, { (as_define_region as_create 0x400000 4096 1 0 1).2 with
                as_vbase2 := region_base 0x10000000,
                as_npages2 := region_npages 0x10000000 8192 }) ∧
    as_define_region
        (as_define_region (as_define_region as_create 0x400000 4096 1 0 1).2
          0x10000000 8192 1 1 0).2
        0x20000000 4096 1 1 0
      = (EUNIMP,
         (as_define_region (as_define_region as_create 0x400000 4096 1 0 1).2
           0x10000000 8192 1 1 0).2) :=
  as_define_region_three_calls 0x400000 4096 0x10000000 8192 0x20000000 4096
    1 0 1 1 1 0 1 1 0 (by decide) (by decide) (by decide) (by decide)

/-- C6: when `vaddr + sz + PAGE_SIZE` does not overflow 32 bits, a successful
`as_define_region` stores, in the segment it binds (segment 1 when that is
unset, otherwise segment 2), the base `vaddr` rounded down to a multiple of
`PAGE_SIZE` and the page count `ceil((sz + vaddr mod PAGE_SIZE) / PAGE_SIZE)`,
which is the least number of pages for which `[base, base + npages*PAGE_SIZE)`
reaches from `base ≤ vaddr` to the end `vaddr + sz` of the byte range: every
byte of `[vaddr, vaddr + sz)` lies in these pages, and for `sz > 0` no smaller
number of pages holds them all. -/
theorem as_define_region_rounding (as : addrspace) (vaddr sz : Nat)
    (readable writeable executable : Int)
    (hov : vaddr + sz + PAGE_SIZE < WORD)
    (hok : (as_define_region as vaddr sz readable writeable executable).1 = 0) :
    (as.as_vbase1 = 0 →
      (as_define_region as vaddr sz readable writeable executable).2.as_vbase1
        = vaddr - vaddr % PAGE_SIZE ∧
      (as_define_region as vaddr sz readable writeable executable).2.as_npages1
        = (sz + vaddr % PAGE_SIZE + PAGE_SIZE - 1) / PAGE_SIZE) ∧
    (as.as_vbase1 ≠ 0 →
      (as_define_region as vaddr sz readable writeable executable).2.as_vbase2
        = vaddr - vaddr % PAGE_SIZE ∧
      (as_define_region as vaddr sz readable writeable executable).2.as_npages2
        = (sz + vaddr % PAGE_SIZE + PAGE_SIZE - 1) / PAGE_SIZE) ∧
    PAGE_SIZE ∣ vaddr - vaddr % PAGE_SIZE ∧
    vaddr - vaddr % PAGE_SIZE ≤ vaddr ∧
    vaddr < vaddr - vaddr % PAGE_SIZE + PAGE_SIZE ∧
    vaddr + sz ≤ vaddr - vaddr % PAGE_SIZE
      + (sz + vaddr % PAGE_SIZE + PAGE_SIZE - 1) / PAGE_SIZE * PAGE_SIZE ∧
    (∀ m, vaddr + sz ≤ vaddr - vaddr % PAGE_SIZE + m * PAGE_SIZE →
      (sz + vaddr % PAGE_SIZE + PAGE_SIZE - 1) / PAGE_SIZE ≤ m) ∧
    (∀ b, vaddr ≤ b → b < vaddr + sz →
      vaddr - vaddr % PAGE_SIZE ≤ b ∧
      b < vaddr - vaddr % PAGE_SIZE
        + (sz + vaddr % PAGE_SIZE + PAGE_SIZE - 1) / PAGE_SIZE * PAGE_SIZE) ∧
    (0 < sz → ∀ m,
      (∀ b, vaddr ≤ b → b < vaddr + sz → b < vaddr - vaddr % PAGE_SIZE + m * PAGE_SIZE) →
      (sz + vaddr % PAGE_SIZE + PAGE_SIZE - 1) / PAGE_SIZE ≤ m) := by
  have hb := region_base_eq vaddr (by unfold PAGE_SIZE at hov; omega)
  have hn := region_npages_eq vaddr sz hov
  refine ⟨?_, ?_, ?_, ?_, ?_, ?_, ?_, ?_, ?_⟩
  · intro h0
    simp only [as_define_region, h0, if_true]
    exact ⟨hb, hn⟩
  · intro h0
    by_cases h2 : as.as_vbase2 = 0
    · simp only [as_define_region, if_neg h0, h2, if_true]
      exact ⟨hb, hn⟩
    · simp only [as_define_region, if_neg h0, if_neg h2] at hok
      exact absurd hok (by decide)
  · unfold PAGE_SIZE; omega
  · omega
  · unfold PAGE_SIZE; omega
  · unfold PAGE_SIZE; omega
  · intro m hm
    unfold PAGE_SIZE at *
    omega
  · intro b hb1 hb2
    unfold PAGE_SIZE at *
    omega
  · intro hpos m hm
    have := hm (vaddr + sz - 1) (by omega) (by omega)
    unfold PAGE_SIZE at *
    omega

theorem as_define_region_rounding_witness :
    (as_create.as_vbase1 = 0 →
      (as_define_region as_create 0x400123 5000 1 1 1).2.as_vbase1
        = 0x400123 - 0x400123 % PAGE_SIZE ∧
      (as_define_region as_create 0x400123 5000 1 1 1).2.as_npages1
        = (5000 + 0x400123 % PAGE_SIZE + PAGE_SIZE - 1) / PAGE_SIZE) ∧
    (as_create.as_vbase1 ≠ 0 →
      (as_define_region as_create 0x400123 5000 1 1 1).2.as_vbase2
        = 0x400123 - 0x400123 % PAGE_SIZE ∧
      (as_define_region as_create 0x400123 5000 1 1 1).2.as_npages2
        = (5000 + 0x400123 % PAGE_SIZE + PAGE_SIZE - 1) / PAGE_SIZE) ∧
    PAGE_SIZE ∣ 0x400123 - 0x400123 % PAGE_SIZE ∧
    0x400123 - 0x400123 % PAGE_SIZE ≤ 0x400123 ∧
    0x400123 < 0x400123 - 0x400123 % PAGE_SIZE + PAGE_SIZE ∧
    0x400123 + 5000 ≤ 0x400123 - 0x400123 % PAGE_SIZE
      + (5000 + 0x400123 % PAGE_SIZE + PAGE_SIZE - 1) / PAGE_SIZE * PAGE_SIZE ∧
    (∀ m, 0x400123 + 5000 ≤ 0x400123 - 0x400123 % PAGE_SIZE + m * PAGE_SIZE →
      (5000 + 0x400123 % PAGE_SIZE + PAGE_SIZE - 1) / PAGE_SIZE ≤ m) ∧
    (∀ b, 0x400123 ≤ b → b < 0x400123 + 5000 →
      0x400123 - 0x400123 % PAGE_SIZE ≤ b ∧
      b < 0x400123 - 0x400123 % PAGE_SIZE
        + (5000 + 0x400123 % PAGE_SIZE + PAGE_SIZE - 1) / PAGE_SIZE * PAGE_SIZE) ∧
    (0 < 5000 → ∀ m,
      (∀ b, 0x400123 ≤ b → b < 0x400123 + 5000 →
        b < 0x400123 - 0x400123 % PAGE_SIZE + m * PAGE_SIZE) →
      (5000 + 0x400123 % PAGE_SIZE + PAGE_SIZE - 1) / PAGE_SIZE ≤ m) :=
  as_define_region_rounding as_create 0x400123 5000 1 1 1 (by decide) (by decide)

/-! ## `vm_fault` -/

/-- What the loop over the translation cache does: it writes the first slot
that holds no valid translation, or reports that every slot is valid. -/
theorem tlb_install_spec (ehi elo : Nat) (tlb : List TLBEntry) :
    ∀ (cnt i : Nat), i + cnt ≤ tlb.length →
      (∃ k, i ≤ k ∧ k < i + cnt ∧
        tlb_install ehi elo tlb cnt i = some (some (tlb.set k { ehi := ehi, elo := elo })) ∧
        (∃ e, tlb[k]? = some e ∧ e.elo &&& TLBLO_VALID = 0) ∧
        ∀ j, i ≤ j → j < k → ∃ e, tlb[j]? = some e ∧ e.elo &&& TLBLO_VALID ≠ 0) ∨
      (tlb_install ehi elo tlb cnt i = some none ∧
        ∀ j, i ≤ j → j < i + cnt → ∃ e, tlb[j]? = some e ∧ e.elo &&& TLBLO_VALID ≠ 0) := by
  intro cnt
  induction cnt with
  | zero =>
    intro i _
    right
    exact ⟨rfl, fun j h1 h2 => by omega⟩
  | succ cnt ih =>
    intro i hle
    have hlt : i < tlb.length := by omega
    have hget : tlb[i]? = some tlb[i] := List.getElem?_eq_getElem hlt
    rw [tlb_install, hget]
    by_cases hv : tlb[i].elo &&& TLBLO_VALID ≠ 0
    · simp only [hv, ne_eq, not_false_eq_true, if_true]
      rcases ih (i + 1) (by omega) with ⟨k, h1, h2, h3, h4, h5⟩ | ⟨h1, h2⟩
      · left
        refine ⟨k, by omega, by omega, h3, h4, ?_⟩
        intro j hj1 hj2
        by_cases e : j = i
        · subst e; exact ⟨tlb[j], hget, hv⟩
        · exact h5 j (by omega) hj2
      · right
        refine ⟨h1, ?_⟩
        intro j hj1 hj2
        by_cases e : j = i
        · subst e; exact ⟨tlb[j], hget, hv⟩
        · exact h2 j (by omega) (by omega)
    · left
      have hv2 : tlb[i].elo &&& TLBLO_VALID = 0 := by
        by_contra hc; exact hv hc
      refine ⟨i, le_refl i, by omega, ?_, ⟨tlb[i], hget, hv2⟩, fun j h1 h2 => by omega⟩
      simp only [hv2, ne_eq, not_true_eq_false, if_false]

/-- Unfolding of `vm_fault` for a READ or WRITE fault of a process whose
address space passes the assertions. -/
theorem vm_fault_setup (p : proc) (as : addrspace) (tlb : List TLBEntry) (rnd : Nat)
    (faulttype : Int) (va : Nat)
    (hft : faulttype = VM_FAULT_READ ∨ faulttype = VM_FAULT_WRITE)
    (hp : p.p_addrspace = some as) (hset : as_setup as) :
    vm_fault (some p) tlb rnd faulttype va =
      match fault_paddr as (va &&& PAGE_FRAME) with
      | none => some (EFAULT, tlb)
      | some paddr =>
        if paddr &&& PAGE_FRAME = paddr then
          match tlb_install (va &&& PAGE_FRAME) (fault_elo as (va &&& PAGE_FRAME) paddr)
              tlb NUM_TLB 0 with
          | none => none
          | some (some tlb2) => some (0, tlb2)
          | some none =>
            some (0, tlb_random (va &&& PAGE_FRAME) (fault_elo as (va &&& PAGE_FRAME) paddr)
              tlb rnd)
        else none := by
  have hro : faulttype ≠ VM_FAULT_READONLY := by
    rcases hft with h | h <;> rw [h] <;> decide
  unfold vm_fault
  simp only [if_neg hro, if_pos hft, hp, if_pos hset]

/-- A READ or WRITE fault whose page resolves to the aligned physical address
`paddr` returns 0 and installs the translation in one slot. -/
theorem vm_fault_installs (p : proc) (as : addrspace) (tlb : List TLBEntry) (rnd : Nat)
    (faulttype : Int) (va paddr : Nat)
    (hft : faulttype = VM_FAULT_READ ∨ faulttype = VM_FAULT_WRITE)
    (hp : p.p_addrspace = some as) (hset : as_setup as) (htlb : tlb.length = NUM_TLB)
    (hpa : fault_paddr as (va &&& PAGE_FRAME) = some paddr)
    (hal : paddr &&& PAGE_FRAME = paddr) :
    FaultInstalls as tlb (vm_fault (some p) tlb rnd faulttype va) (va &&& PAGE_FRAME) paddr := by
  rw [vm_fault_setup p as tlb rnd faulttype va hft hp hset, hpa]
  simp only [if_pos hal]
  rcases tlb_install_spec (va &&& PAGE_FRAME) (fault_elo as (va &&& PAGE_FRAME) paddr) tlb
      NUM_TLB 0 (by rw [htlb]; omega) with ⟨k, _, h2, h3, _⟩ | ⟨h1, _⟩
  · rw [h3]
    exact ⟨k, by omega, rfl, fault_elo_frame as _ paddr hal⟩
  · rw [h1]
    refine ⟨rnd % NUM_TLB, Nat.mod_lt _ (by decide), rfl, fault_elo_frame as _ paddr hal⟩

/-- The physical address computed from an aligned page inside a region with
aligned bases is aligned: the assertion of source line 289 passes. -/
theorem region_paddr_aligned (page vbase pbase : Nat) (h1 : page &&& PAGE_FRAME = page)
    (h2 : vbase &&& PAGE_FRAME = vbase) (h3 : pbase &&& PAGE_FRAME = pbase) (h4 : page ≥ vbase) :
    add32 (sub32 page vbase) pbase &&& PAGE_FRAME = add32 (sub32 page vbase) pbase := by
  rw [aligned_iff] at *
  unfold add32 sub32 WORD PAGE_SIZE at *
  omega

theorem page_aligned (va : Nat) : (va &&& PAGE_FRAME) &&& PAGE_FRAME = va &&& PAGE_FRAME := by
  rw [Nat.and_assoc, Nat.and_self]

theorem stackbase_aligned : stackbase &&& PAGE_FRAME = stackbase := by decide

/-- C8: for a READ or WRITE fault on a fully set-up address space (every
assertion of `vm_fault` passes) on a machine with `NUM_TLB` slots, the fault
address is reduced to its page `va & PAGE_FRAME` and the ranges of segment 1,
segment 2 and the stack are tested in that order; the first one containing the
page gives the physical address `(page - region_base) + region_pbase`, which is
installed as the translation of the page in one slot, and the call returns 0.
In particular, for a fault address inside segment 2 (under that order: the
page is not claimed by segment 1), the installed translation maps the fault
address to `(va - vbase2) + pbase2`: that address is the installed physical
page plus the offset of `va` in its page. -/
theorem vm_fault_translates (p : proc) (as : addrspace) (tlb : List TLBEntry) (rnd : Nat)
    (faulttype : Int) (va : Nat)
    (hft : faulttype = VM_FAULT_READ ∨ faulttype = VM_FAULT_WRITE)
    (hp : p.p_addrspace = some as) (hset : as_setup as) (htlb : tlb.length = NUM_TLB) :
    (in_seg1 as (va &&& PAGE_FRAME) →
      FaultInstalls as tlb (vm_fault (some p) tlb rnd faulttype va) (va &&& PAGE_FRAME)
        (add32 (sub32 (va &&& PAGE_FRAME) as.as_vbase1) as.as_pbase1)) ∧
    (¬ in_seg1 as (va &&& PAGE_FRAME) → in_seg2 as (va &&& PAGE_FRAME) →
      FaultInstalls as tlb (vm_fault (some p) tlb rnd faulttype va) (va &&& PAGE_FRAME)
        (add32 (sub32 (va &&& PAGE_FRAME) as.as_vbase2) as.as_pbase2)) ∧
    (¬ in_seg1 as (va &&& PAGE_FRAME) → ¬ in_seg2 as (va &&& PAGE_FRAME) →
      in_stack (va &&& PAGE_FRAME) →
      FaultInstalls as tlb (vm_fault (some p) tlb rnd faulttype va) (va &&& PAGE_FRAME)
        (add32 (sub32 (va &&& PAGE_FRAME) stackbase) as.as_stackpbase)) ∧
    (va < WORD → ¬ in_seg1 as (va &&& PAGE_FRAME) → in_seg2 as (va &&& PAGE_FRAME) →
      add32 (sub32 va as.as_vbase2) as.as_pbase2
        = add32 (sub32 (va &&& PAGE_FRAME) as.as_vbase2) as.as_pbase2 + va % PAGE_SIZE) := by
  obtain ⟨_, _, _, _, _, _, _, a1, a2, a3, a4, a5⟩ := hset
  have hset2 : as_setup as := by
    unfold as_setup; refine ⟨?_, ?_, ?_, ?_, ?_, ?_, ?_, a1, a2, a3, a4, a5⟩ <;> assumption
  refine ⟨?_, ?_, ?_, ?_⟩
  · intro h1
    apply vm_fault_installs p as tlb rnd faulttype va _ hft hp hset2 htlb
    · unfold fault_paddr; rw [if_pos h1]
    · exact region_paddr_aligned _ _ _ (page_aligned va) a1 a2 h1.1
  · intro h1 h2
    apply vm_fault_installs p as tlb rnd faulttype va _ hft hp hset2 htlb
    · unfold fault_paddr; rw [if_neg h1, if_pos h2]
    · exact region_paddr_aligned _ _ _ (page_aligned va) a3 a4 h2.1
  · intro h1 h2 h3
    apply vm_fault_installs p as tlb rnd faulttype va _ hft hp hset2 htlb
    · unfold fault_paddr; rw [if_neg h1, if_neg h2, if_pos h3]
    · exact region_paddr_aligned _ _ _ (page_aligned va) stackbase_aligned a5 h3.1
  · intro hva _ h2
    have hge := h2.1
    rw [and_PAGE_FRAME] at hge ⊢
    rw [aligned_iff] at a3 a4
    unfold add32 sub32 WORD PAGE_SIZE at *
    omega

theorem vm_fault_translates_witness :
    (in_seg1 (as_sample 0x500000) (0x500004 &&& PAGE_FRAME) →
      FaultInstalls (as_sample 0x500000) tlb_empty
        (vm_fault (some { p_addrspace := some (as_sample 0x500000) }) tlb_empty 7
          VM_FAULT_READ 0x500004) (0x500004 &&& PAGE_FRAME)
        (add32 (sub32 (0x500004 &&& PAGE_FRAME) (as_sample 0x500000).as_vbase1)
          (as_sample 0x500000).as_pbase1)) ∧
    (¬ in_seg1 (as_sample 0x500000) (0x500004 &&& PAGE_FRAME) →
      in_seg2 (as_sample 0x500000) (0x500004 &&& PAGE_FRAME) →
      FaultInstalls (as_sample 0x500000) tlb_empty
        (vm_fault (some { p_addrspace := some (as_sample 0x500000) }) tlb_empty 7
          VM_FAULT_READ 0x500004) (0x500004 &&& PAGE_FRAME)
        (add32 (sub32 (0x500004 &&& PAGE_FRAME) (as_sample 0x500000).as_vbase2)
          (as_sample 0x500000).as_pbase2)) ∧
    (¬ in_seg1 (as_sample 0x500000) (0x500004 &&& PAGE_FRAME) →
      ¬ in_seg2 (as_sample 0x500000) (0x500004 &&& PAGE_FRAME) →
      in_stack (0x500004 &&& PAGE_FRAME) →
      FaultInstalls (as_sample 0x500000) tlb_empty
        (vm_fault (some { p_addrspace := some (as_sample 0x500000) }) tlb_empty 7
          VM_FAULT_READ 0x500004) (0x500004 &&& PAGE_FRAME)
        (add32 (sub32 (0x500004 &&& PAGE_FRAME) stackbase) (as_sample 0x500000).as_stackpbase)) ∧
    (0x500004 < WORD → ¬ in_seg1 (as_sample 0x500000) (0x500004 &&& PAGE_FRAME) →
      in_seg2 (as_sample 0x500000) (0x500004 &&& PAGE_FRAME) →
      add32 (sub32 0x500004 (as_sample 0x500000).as_vbase2) (as_sample 0x500000).as_pbase2
        = add32 (sub32 (0x500004 &&& PAGE_FRAME) (as_sample 0x500000).as_vbase2)
            (as_sample 0x500000).as_pbase2 + 0x500004 % PAGE_SIZE) :=
  vm_fault_translates { p_addrspace := some (as_sample 0x500000) } (as_sample 0x500000)
    tlb_empty 7 VM_FAULT_READ 0x500004 (by decide) rfl (by decide) (by decide)

/-- C9 (as stated, refuted): with a segment 2 that occupies the page
immediately under the stack base, a READ fault in that page is resolved from
segment 2: `vm_fault` returns 0, not EFAULT, and writes slot 0. -/
theorem vm_fault_below_stack_in_segment :
    as_setup (as_sample 0x7fff3000) ∧
    stackbase - PAGE_SIZE ≤ 0x7fff3004 ∧ 0x7fff3004 < stackbase ∧
    vm_fault (some { p_addrspace := some (as_sample 0x7fff3000) }) tlb_empty 0
        VM_FAULT_READ 0x7fff3004
      = some (0, tlb_empty.set 0 { ehi := 0x7fff3000, elo := 0x3600 }) ∧
    vm_fault (some { p_addrspace := some (as_sample 0x7fff3000) }) tlb_empty 0
        VM_FAULT_READ 0x7fff3004
      ≠ some (EFAULT, tlb_empty) := by
  decide

/-- C9 (amended): for a READ or WRITE fault on a fully set-up address space, a
fault address in the page immediately under the stack base
`USERSTACK - 12*PAGE_SIZE`, or at or above `USERSTACK`, whose page lies in
neither segment 1 nor segment 2, makes `vm_fault` return EFAULT and leaves
every slot of the translation cache as it was. -/
theorem vm_fault_outside_stack (p : proc) (as : addrspace) (tlb : List TLBEntry) (rnd : Nat)
    (faulttype : Int) (va : Nat)
    (hft : faulttype = VM_FAULT_READ ∨ faulttype = VM_FAULT_WRITE)
    (hp : p.p_addrspace = some as) (hset : as_setup as) (hva : va < WORD)
    (hrange : (USERSTACK - DUMBVM_STACKPAGES * PAGE_SIZE - PAGE_SIZE ≤ va ∧
        va < USERSTACK - DUMBVM_STACKPAGES * PAGE_SIZE) ∨ USERSTACK ≤ va)
    (h1 : ¬ in_seg1 as (va &&& PAGE_FRAME)) (h2 : ¬ in_seg2 as (va &&& PAGE_FRAME)) :
    vm_fault (some p) tlb rnd faulttype va = some (EFAULT, tlb) := by
  have h3 : ¬ in_stack (va &&& PAGE_FRAME) := by
    unfold in_stack stacktop
    rw [stackbase_eq, and_PAGE_FRAME]
    unfold USERSTACK DUMBVM_STACKPAGES WORD PAGE_SIZE at *
    omega
  rw [vm_fault_setup p as tlb rnd faulttype va hft hp hset]
  unfold fault_paddr
  rw [if_neg h1, if_neg h2, if_neg h3]

theorem vm_fault_outside_stack_witness :
    vm_fault (some { p_addrspace := some (as_sample 0x500000) }) tlb_empty 0
      VM_FAULT_WRITE 0x7fff3ffc = some (EFAULT, tlb_empty) :=
  vm_fault_outside_stack { p_addrspace := some (as_sample 0x500000) } (as_sample 0x500000)
    tlb_empty 0 VM_FAULT_WRITE 0x7fff3ffc (by decide) rfl (by decide) (by decide)
    (by decide) (by decide) (by decide)

/-- C10 (as stated, refuted): a fault of kind `VM_FAULT_READONLY` returns the
sentinel -1, which is not EINVAL and is none of 0, EINVAL, EFAULT. -/
theorem vm_fault_readonly_sentinel :
    vm_fault (some { p_addrspace := some (as_sample 0x500000) }) tlb_empty 0
      VM_FAULT_READONLY 0x400000 = some (-1, tlb_empty) ∧
    (-1 : Int) ≠ EINVAL ∧ (-1 : Int) ≠ 0 ∧ (-1 : Int) ≠ EFAULT := by
  decide

/-- C10 (amended): for every fault address and every process, address-space
and translation-cache state, `vm_fault` called with `VM_FAULT_READONLY`
returns -1 and leaves the translation cache as it was; and every value
`vm_fault` returns, for any fault kind, is one of 0, -1, EINVAL or EFAULT. -/
theorem vm_fault_codes (curproc : Option proc) (tlb : List TLBEntry) (rnd va : Nat) :
    vm_fault curproc tlb rnd VM_FAULT_READONLY va = some (-1, tlb) ∧
    ∀ (faulttype r : Int) (tlb2 : List TLBEntry),
      vm_fault curproc tlb rnd faulttype va = some (r, tlb2) →
      r = 0 ∨ r = -1 ∨ r = EINVAL ∨ r = EFAULT := by
  constructor
  · unfold vm_fault
    simp
  · intro faulttype r tlb2 h
    unfold vm_fault at h
    simp only at h
    split at h
    · right; left
      exact ((Prod.mk.inj (Option.some.inj h)).1).symm
    · split at h
      · split at h
        · right; right; right
          exact ((Prod.mk.inj (Option.some.inj h)).1).symm
        · split at h
          · right; right; right
            exact ((Prod.mk.inj (Option.some.inj h)).1).symm
          · split at h
            · split at h
              · right; right; right
                exact ((Prod.mk.inj (Option.some.inj h)).1).symm
              · split at h
                · split at h
                  · exact Option.noConfusion h
                  · left; exact ((Prod.mk.inj (Option.some.inj h)).1).symm
                  · left; exact ((Prod.mk.inj (Option.some.inj h)).1).symm
                · exact Option.noConfusion h
            · exact Option.noConfusion h
      · right; right; left
        exact ((Prod.mk.inj (Option.some.inj h)).1).symm

theorem vm_fault_codes_witness :
    EFAULT = 0 ∨ EFAULT = -1 ∨ EFAULT = EINVAL ∨ EFAULT = EFAULT :=
  (vm_fault_codes none tlb_empty 0 0x400000).2 VM_FAULT_READ EFAULT tlb_empty (by decide)

/-! ## Behaviour of the allocator at the edge of the coremap -/

/-- The inner scan returns when the cells it visits lie inside the array. -/
theorem run_is_free_total (cm : List Int) (i : Nat) (hlen : cm.length < WORD) :
    ∀ (cnt a : Nat), a + i + cnt ≤ cm.length → ∃ b, run_is_free cm i cnt a = some b := by
  intro cnt
  induction cnt with
  | zero => intro a _; exact ⟨true, rfl⟩
  | succ cnt ih =>
    intro a ha
    have hmod : (a + i) % WORD = a + i := Nat.mod_eq_of_lt (by omega)
    have hlt : a + i < cm.length := by omega
    rw [run_is_free, hmod, List.getElem?_eq_getElem hlt]
    by_cases hz : cm[a + i] = 0
    · simp only [hz, ne_eq, not_true_eq_false, if_false]
      exact ih (a + 1) (by omega)
    · simp only [hz, ne_eq, not_false_eq_true, if_true]
      exact ⟨false, rfl⟩

/-- The scan returns when every run it can inspect lies inside the array. -/
theorem alloc_scan_total (vm : VM) (n : Nat) (hn : 1 ≤ n) (hlen : vm.coremap.length < WORD) :
    ∀ (fuel i : Nat), i + fuel + n ≤ vm.coremap.length + 1 →
      ∃ r, alloc_scan vm (n : Int) fuel i = some r := by
  have hcnt : ((n : Int) - 1).toNat = n - 1 := by omega
  intro fuel
  induction fuel with
  | zero => intro i _; exact ⟨(0, vm), rfl⟩
  | succ fuel ih =>
    intro i hle
    have hlt : i < vm.coremap.length := by omega
    rw [alloc_scan, List.getElem?_eq_getElem hlt, hcnt]
    by_cases hz : vm.coremap[i] = 0
    · simp only [hz, if_true]
      obtain ⟨b, hb⟩ := run_is_free_total vm.coremap i hlen (n - 1) 1 (by omega)
      rw [hb]
      cases b with
      | false => exact ih (i + 1) (by omega)
      | true =>
        obtain ⟨cm2, hm1, _, _⟩ := mark_run_spec (n : Int) i (n - 1) 1
          (vm.coremap.set i (n : Int)) (by rw [List.length_set]; exact hlen)
          (by rw [List.length_set]; omega)
        simp only [hm1]
        exact ⟨_, rfl⟩
    · simp only [hz, if_false]
      exact ih (i + 1) (by omega)

/-- What `alloc_kpages` does on a booted allocator for a request of
`1 ≤ n ≤ total_num_page` frames: it returns, and either it returns 0 with the
state untouched, no index `j < total_num_page - n` heading a free run of `n`
cells, or it allocates at the lowest such index. -/
theorem alloc_kpages_behaviour (vm : VM) (n : Nat) (hb : Booted vm) (hn : 1 ≤ n)
    (hle : n ≤ vm.total_num_page) :
    (alloc_kpages vm (n : Int) = some (0, vm) ∧
      ∀ j, j + n < vm.total_num_page → ¬ FreeRun vm.coremap j n) ∨
    (∃ j addr vm2, alloc_kpages vm (n : Int) = some (addr, vm2) ∧
      j + n < vm.total_num_page ∧ (∀ j2, j2 < j → ¬ FreeRun vm.coremap j2 n) ∧
      AllocatedAt vm vm2 n j addr) := by
  have hlen := hb.length_lt
  have hlen2 : vm.coremap.length < WORD := by unfold PAGE_SIZE at hlen; omega
  have hfuel : toU32 ((vm.total_num_page : Int) - (n : Int)) = vm.total_num_page - n := by
    have ht : vm.total_num_page < WORD := by rw [← hb.2.2.2.2]; exact hlen2
    unfold toU32 WORD at *
    omega
  rw [alloc_kpages_booted vm _ hb.1, hfuel]
  obtain ⟨r, hr⟩ := alloc_scan_total vm n hn hlen2 (vm.total_num_page - n) 0
    (by rw [hb.2.2.2.2]; omega)
  obtain ⟨addr, vm2⟩ := r
  rcases alloc_scan_spec vm n hn hlen2 _ _ _ _ hr with ⟨h1, h2, h3⟩ | ⟨j, _, h2, h3, h4⟩
  · left
    subst h1; subst h2
    exact ⟨hr, fun j hj => h3 j (Nat.zero_le j) (by omega)⟩
  · right
    exact ⟨j, addr, vm2, hr, by omega, fun j2 hj2 => h3 j2 (Nat.zero_le j2) hj2, h4⟩

/-- A request of `1 ≤ n ≤ total_num_page` frames on a coremap without any run
of `n` free cells returns 0 and leaves the state untouched. -/
theorem alloc_kpages_no_run (vm : VM) (n : Nat) (hb : Booted vm) (hn : 1 ≤ n)
    (hle : n ≤ vm.total_num_page) (hfree : ∀ j, ¬ FreeRun vm.coremap j n) :
    alloc_kpages vm (n : Int) = some (0, vm) := by
  rcases alloc_kpages_behaviour vm n hb hn hle with ⟨h, _⟩ | ⟨j, _, _, _, _, _, h⟩
  · exact h
  · exact absurd h.2.1 (hfree j)

/-- C2 (code defect, evaluated): on the 4-frame machine right after
`vm_bootstrap`, frames 1, 2, 3 are free, so the run of 3 free cells that ends
at the last frame exists, yet `alloc_kpages 3` returns 0: the scan stops at
`i < total_num_page - npages` and never tries index
`total_num_page - npages`. -/
theorem alloc_kpages_misses_last_run :
    vm_bootstrap vm_unbooted = some (vm4 [1, 0, 0, 0]) ∧
    Booted (vm4 [1, 0, 0, 0]) ∧
    1 + 3 ≤ (vm4 [1, 0, 0, 0]).total_num_page ∧
    FreeRun (vm4 [1, 0, 0, 0]).coremap 1 3 ∧
    alloc_kpages (vm4 [1, 0, 0, 0]) 3 = some (0, vm4 [1, 0, 0, 0]) := by
  decide

/-- C3 (code defect, evaluated): on the 4-frame machine right after
`vm_bootstrap` a request for 5 frames does not return 0: the loop bound
`total_num_page - npages` wraps to `2^32 - 1` and the scan reads `coremap[4]`,
outside the array. -/
theorem alloc_kpages_beyond_total :
    vm_bootstrap vm_unbooted = some (vm4 [1, 0, 0, 0]) ∧
    Booted (vm4 [1, 0, 0, 0]) ∧
    toU32 (((vm4 [1, 0, 0, 0]).total_num_page : Int) - 5) = 4294967295 ∧
    alloc_kpages (vm4 [1, 0, 0, 0]) 5 = none ∧
    alloc_kpages (vm4 [1, 0, 0, 0]) 5 ≠ some (0, vm4 [1, 0, 0, 0]) := by
  decide

/-- The physical address `vm_fault` computes for a page of a set-up address
space is page-aligned, whichever region it comes from. -/
theorem fault_paddr_aligned (as : addrspace) (va paddr : Nat) (hset : as_setup as)
    (hpa : fault_paddr as (va &&& PAGE_FRAME) = some paddr) :
    paddr &&& PAGE_FRAME = paddr := by
  obtain ⟨_, _, _, _, _, _, _, a1, a2, a3, a4, a5⟩ := hset
  unfold fault_paddr at hpa
  by_cases h1 : in_seg1 as (va &&& PAGE_FRAME)
  · rw [if_pos h1] at hpa
    rw [← Option.some.inj hpa]
    exact region_paddr_aligned _ _ _ (page_aligned va) a1 a2 h1.1
  · rw [if_neg h1] at hpa
    by_cases h2 : in_seg2 as (va &&& PAGE_FRAME)
    · rw [if_pos h2] at hpa
      rw [← Option.some.inj hpa]
      exact region_paddr_aligned _ _ _ (page_aligned va) a3 a4 h2.1
    · rw [if_neg h2] at hpa
      by_cases h3 : in_stack (va &&& PAGE_FRAME)
      · rw [if_pos h3] at hpa
        rw [← Option.some.inj hpa]
        exact region_paddr_aligned _ _ _ (page_aligned va) stackbase_aligned a5 h3.1
      · rw [if_neg h3] at hpa
        exact Option.noConfusion hpa

/-- The VALID and DIRTY bits of the low word installed for an aligned physical
address: VALID is always set; DIRTY is clear exactly when the page lies in
segment 1 and the flag of the address space is set. -/
theorem fault_elo_bits (as : addrspace) (page paddr : Nat)
    (h : paddr &&& PAGE_FRAME = paddr) :
    fault_elo as page paddr &&& TLBLO_VALID = TLBLO_VALID ∧
    (in_seg1 as page ∧ as.flag = true → fault_elo as page paddr &&& TLBLO_DIRTY = 0) ∧
    (¬ (in_seg1 as page ∧ as.flag = true) →
      fault_elo as page paddr &&& TLBLO_DIRTY = TLBLO_DIRTY) := by
  have p1 : paddr &&& TLBLO_VALID = 0 := by
    have e : PAGE_FRAME &&& TLBLO_VALID = 0 := by decide
    rw [← h, Nat.and_assoc, e, Nat.and_zero]
  have p2 : paddr &&& TLBLO_DIRTY = 0 := by
    have e : PAGE_FRAME &&& TLBLO_DIRTY = 0 := by decide
    rw [← h, Nat.and_assoc, e, Nat.and_zero]
  have d1 : TLBLO_DIRTY &&& TLBLO_VALID = 0 := by decide
  have d2 : TLBLO_VALID &&& TLBLO_DIRTY = 0 := by decide
  have n1 : not32 TLBLO_DIRTY &&& TLBLO_VALID = TLBLO_VALID := by decide
  have n2 : not32 TLBLO_DIRTY &&& TLBLO_DIRTY = 0 := by decide
  have kv : (paddr ||| TLBLO_DIRTY ||| TLBLO_VALID) &&& TLBLO_VALID = TLBLO_VALID := by
    rw [Nat.and_comm, Nat.and_or_distrib_left, Nat.and_or_distrib_left,
      Nat.and_comm TLBLO_VALID paddr, p1, d2, Nat.and_self, Nat.zero_or, Nat.zero_or]
  have kd : (paddr ||| TLBLO_DIRTY ||| TLBLO_VALID) &&& TLBLO_DIRTY = TLBLO_DIRTY := by
    rw [Nat.and_comm, Nat.and_or_distrib_left, Nat.and_or_distrib_left,
      Nat.and_comm TLBLO_DIRTY paddr, p2, d1, Nat.and_self, Nat.zero_or, Nat.or_zero]
  unfold fault_elo
  simp only
  refine ⟨?_, ?_, ?_⟩
  · split
    · rw [Nat.and_assoc, n1]; exact kv
    · exact kv
  · intro hc
    rw [if_pos hc, Nat.and_assoc, n2, Nat.and_zero]
  · intro hc
    rw [if_neg hc]; exact kd

/-- C20: for a READ or WRITE fault on a set-up address space whose page
resolves to the physical page `paddr`, on a machine with `NUM_TLB` slots of
which at least one holds no valid translation, `vm_fault` returns 0 and
writes exactly one slot: the lowest-indexed invalid one (every slot below it
is valid, every other slot keeps its entry).  The entry written has `ehi` the
faulting page and `elo` with physical page `paddr` and the VALID bit set; its
DIRTY bit is clear if the page lies in segment 1 and the flag of the address
space is set, and set otherwise. -/
theorem vm_fault_writes_first_invalid (p : proc) (as : addrspace) (tlb : List TLBEntry)
    (rnd : Nat) (faulttype : Int) (va paddr k : Nat) (e : TLBEntry)
    (hft : faulttype = VM_FAULT_READ ∨ faulttype = VM_FAULT_WRITE)
    (hp : p.p_addrspace = some as) (hset : as_setup as) (htlb : tlb.length = NUM_TLB)
    (hpa : fault_paddr as (va &&& PAGE_FRAME) = some paddr)
    (hk : tlb[k]? = some e) (hinv : e.elo &&& TLBLO_VALID = 0) :
    ∃ j elo, j ≤ k ∧ j < NUM_TLB ∧
      (∃ e0, tlb[j]? = some e0 ∧ e0.elo &&& TLBLO_VALID = 0) ∧
      (∀ i, i < j → ∃ e1, tlb[i]? = some e1 ∧ e1.elo &&& TLBLO_VALID ≠ 0) ∧
      vm_fault (some p) tlb rnd faulttype va
        = some (0, tlb.set j { ehi := va &&& PAGE_FRAME, elo := elo }) ∧
      (∀ i, i ≠ j →
        (tlb.set j { ehi := va &&& PAGE_FRAME, elo := elo })[i]? = tlb[i]?) ∧
      (tlb.set j { ehi := va &&& PAGE_FRAME, elo := elo })[j]?
        = some { ehi := va &&& PAGE_FRAME, elo := elo } ∧
      elo &&& PAGE_FRAME = paddr ∧
      elo &&& TLBLO_VALID = TLBLO_VALID ∧
      (elo &&& TLBLO_DIRTY = 0 ↔ in_seg1 as (va &&& PAGE_FRAME) ∧ as.flag = true) ∧
      (¬ (in_seg1 as (va &&& PAGE_FRAME) ∧ as.flag = true) →
        elo &&& TLBLO_DIRTY = TLBLO_DIRTY) := by
  have hal := fault_paddr_aligned as va paddr hset hpa
  have hklt : k < tlb.length := by
    by_contra hc
    rw [List.getElem?_eq_none (Nat.le_of_not_lt hc)] at hk
    exact Option.noConfusion hk
  obtain ⟨b1, b2, b3⟩ := fault_elo_bits as (va &&& PAGE_FRAME) paddr hal
  rw [vm_fault_setup p as tlb rnd faulttype va hft hp hset, hpa]
  simp only [if_pos hal]
  rcases tlb_install_spec (va &&& PAGE_FRAME) (fault_elo as (va &&& PAGE_FRAME) paddr) tlb
      NUM_TLB 0 (by rw [htlb]; omega) with ⟨j, _, h2, h3, h4, h5⟩ | ⟨_, h2⟩
  · have hjk : j ≤ k := by
      by_contra hc
      obtain ⟨e1, he1, hv⟩ := h5 k (Nat.zero_le k) (by omega)
      rw [hk] at he1
      rw [← Option.some.inj he1] at hv
      exact hv hinv
    have hjlt : j < tlb.length := by omega
    refine ⟨j, fault_elo as (va &&& PAGE_FRAME) paddr, hjk, by omega, h4,
      fun i hi => h5 i (Nat.zero_le i) hi, by rw [h3], ?_, ?_,
      fault_elo_frame as _ paddr hal, b1, ?_, b3⟩
    · intro i hi
      rw [List.getElem?_set_ne (fun h => hi h.symm)]
    · rw [List.getElem?_set_self hjlt]
    · constructor
      · intro hz
        by_contra hc
        have := b3 hc
        rw [hz] at this
        exact absurd this (by decide)
      · exact b2
  · exfalso
    obtain ⟨e1, he1, hv⟩ := h2 k (Nat.zero_le k) (by rw [htlb] at hklt; omega)
    rw [hk] at he1
    rw [← Option.some.inj he1] at hv
    exact hv hinv

theorem vm_fault_writes_first_invalid_witness :
    ∃ j elo, j ≤ 5 ∧ j < NUM_TLB ∧
      (∃ e0, tlb_two_valid[j]? = some e0 ∧ e0.elo &&& TLBLO_VALID = 0) ∧
      (∀ i, i < j → ∃ e1, tlb_two_valid[i]? = some e1 ∧ e1.elo &&& TLBLO_VALID ≠ 0) ∧
      vm_fault (some { p_addrspace := some (as_sample 0x500000) }) tlb_two_valid 9
          VM_FAULT_WRITE 0x7fffffe0
        = some (0, tlb_two_valid.set j { ehi := 0x7fffffe0 &&& PAGE_FRAME, elo := elo }) ∧
      (∀ i, i ≠ j →
        (tlb_two_valid.set j { ehi := 0x7fffffe0 &&& PAGE_FRAME, elo := elo })[i]?
          = tlb_two_valid[i]?) ∧
      (tlb_two_valid.set j { ehi := 0x7fffffe0 &&& PAGE_FRAME, elo := elo })[j]?
        = some { ehi := 0x7fffffe0 &&& PAGE_FRAME, elo := elo } ∧
      elo &&& PAGE_FRAME = 0xf000 ∧
      elo &&& TLBLO_VALID = TLBLO_VALID ∧
      (elo &&& TLBLO_DIRTY = 0 ↔
        in_seg1 (as_sample 0x500000) (0x7fffffe0 &&& PAGE_FRAME) ∧
          (as_sample 0x500000).flag = true) ∧
      (¬ (in_seg1 (as_sample 0x500000) (0x7fffffe0 &&& PAGE_FRAME) ∧
          (as_sample 0x500000).flag = true) →
        elo &&& TLBLO_DIRTY = TLBLO_DIRTY) :=
  vm_fault_writes_first_invalid { p_addrspace := some (as_sample 0x500000) }
    (as_sample 0x500000) tlb_two_valid 9 VM_FAULT_WRITE 0x7fffffe0 0xf000 5
    { ehi := 0, elo := 0 } (by decide) rfl (by decide) (by decide) (by decide)
    (by decide) (by decide)

/-! ## The well-formedness invariant of the coremap -/

/-- Two runs of one coremap that share a cell are the same run. -/
theorem run_unique (cm : List Int) (h L h2 L2 j : Nat) (r1 : IsRun cm h L)
    (r2 : IsRun cm h2 L2) (j1 : h ≤ j ∧ j < h + L) (j2 : h2 ≤ j ∧ j < h2 + L2) :
    h = h2 ∧ L = L2 := by
  obtain ⟨p1, _, a1, m1⟩ := r1
  obtain ⟨p2, _, a2, m2⟩ := r2
  rcases Nat.lt_trichotomy h h2 with hlt | heq | hgt
  · have := m1 h2 (by omega) hlt
    rw [a2] at this
    have := Option.some.inj this
    omega
  · subst heq
    rw [a1] at a2
    have := Option.some.inj a2
    exact ⟨rfl, by omega⟩
  · have := m2 h (by omega) hgt
    rw [a1] at this
    have := Option.some.inj this
    omega

/-- Every cell of a run is non-zero. -/
theorem run_cell_ne_zero (cm : List Int) (h L k : Nat) (r : IsRun cm h L)
    (hk : h ≤ k ∧ k < h + L) : cm[k]? ≠ some 0 := by
  obtain ⟨p, _, a, m⟩ := r
  by_cases e : k = h
  · subst e
    rw [a]
    intro hc
    have := Option.some.inj hc
    omega
  · rw [m k hk.2 (by omega)]
    intro hc
    have := Option.some.inj hc
    omega

/-- A run survives any change of the coremap that keeps its cells. -/
theorem run_of_same_cells (cm cm2 : List Int) (h L : Nat) (r : IsRun cm h L)
    (hlen : cm2.length = cm.length)
    (hsame : ∀ k, h ≤ k → k < h + L → cm2[k]? = cm[k]?) : IsRun cm2 h L := by
  obtain ⟨p, b, a, m⟩ := r
  refine ⟨p, by rw [hlen]; exact b, ?_, ?_⟩
  · rw [hsame h (le_refl h) (by omega)]; exact a
  · intro k hk1 hk2
    rw [hsame k (by omega) hk1]; exact m k hk1 hk2

/-- Marking a free run keeps the coremap well-formed. -/
theorem wf_after_alloc (cm cm2 : List Int) (n i : Nat) (hn : 1 ≤ n) (hwf : CoremapWF cm)
    (hle : i + n ≤ cm.length) (hfree : FreeRun cm i n) (hlen : cm2.length = cm.length)
    (hcells : ∀ j, cm2[j]? =
      if j = i then some (n : Int)
      else if i < j ∧ j < i + n then some (-(n : Int)) else cm[j]?) :
    CoremapWF cm2 := by
  intro j hj hne
  by_cases hin : i ≤ j ∧ j < i + n
  · refine ⟨i, by rw [hlen]; omega, n, by rw [hlen]; omega, ?_, hin.1, hin.2⟩
    refine ⟨hn, by rw [hlen]; exact hle, by rw [hcells i, if_pos rfl], ?_⟩
    intro k hk1 hk2
    rw [hcells k, if_neg (by omega), if_pos ⟨hk2, hk1⟩]
  · have hj2 : cm2[j]? = cm[j]? := by
      rw [hcells j, if_neg (by omega), if_neg (by omega)]
    rw [hj2] at hne
    obtain ⟨h, hh, L, hL, hrun, hj3, hj4⟩ := hwf j (by rw [← hlen]; exact hj) hne
    refine ⟨h, by rw [hlen]; exact hh, L, by rw [hlen]; exact hL, ?_, hj3, hj4⟩
    apply run_of_same_cells cm cm2 h L hrun hlen
    intro k hk1 hk2
    have hnz := run_cell_ne_zero cm h L k hrun ⟨hk1, hk2⟩
    have hout : ¬ (i ≤ k ∧ k < i + n) := by
      intro hc
      have := hfree (k - i) (by omega)
      have e : i + (k - i) = k := by omega
      rw [e] at this
      exact hnz this
    rw [hcells k, if_neg (by omega), if_neg (by omega)]

/-- Clearing a whole run keeps the coremap well-formed. -/
theorem wf_after_free (cm cm2 : List Int) (i L : Nat) (hwf : CoremapWF cm)
    (hrun : IsRun cm i L) (hlen : cm2.length = cm.length)
    (hcells : ∀ j, cm2[j]? = if i ≤ j ∧ j < i + L then some 0 else cm[j]?) :
    CoremapWF cm2 := by
  intro j hj hne
  have hout : ¬ (i ≤ j ∧ j < i + L) := by
    intro hc
    rw [hcells j, if_pos hc] at hne
    exact hne rfl
  have hj2 : cm2[j]? = cm[j]? := by rw [hcells j, if_neg hout]
  rw [hj2] at hne
  obtain ⟨h, hh, L2, hL, hrun2, hj3, hj4⟩ := hwf j (by rw [← hlen]; exact hj) hne
  refine ⟨h, by rw [hlen]; exact hh, L2, by rw [hlen]; exact hL, ?_, hj3, hj4⟩
  apply run_of_same_cells cm cm2 h L2 hrun2 hlen
  intro k hk1 hk2
  have hk3 : ¬ (i ≤ k ∧ k < i + L) := by
    intro hc
    obtain ⟨e1, e2⟩ := run_unique cm h L2 i L k hrun2 hrun ⟨hk1, hk2⟩ hc
    subst e1; subst e2
    exact hout ⟨hj3, hj4⟩
  rw [hcells k, if_neg hk3]

/-- The loop of `vm_bootstrap` that marks the frames of the coremap itself
succeeds exactly when these frames exist, and writes exactly their cells. -/
theorem boot_mark_spec (pg : Nat) :
    ∀ (cnt i : Nat) (cm : List Int), i + cnt ≤ cm.length →
      ∃ cm2, boot_mark pg cnt i cm = some cm2 ∧ cm2.length = cm.length ∧
        ∀ j, cm2[j]? =
          if i ≤ j ∧ j < i + cnt then some (if j = 0 then (pg : Int) else 0 - (pg : Int))
          else cm[j]? := by
  intro cnt
  induction cnt with
  | zero =>
    intro i cm _
    refine ⟨cm, rfl, rfl, ?_⟩
    intro j
    have c : ¬ (i ≤ j ∧ j < i + 0) := by omega
    simp only [if_neg c]
  | succ cnt ih =>
    intro i cm hle
    have hlt : i < cm.length := by omega
    obtain ⟨cm2, h1, h2, h3⟩ := ih (i + 1)
      (cm.set i (if i = 0 then (pg : Int) else 0 - (pg : Int)))
      (by rw [List.length_set]; omega)
    refine ⟨cm2, ?_, ?_, ?_⟩
    · rw [boot_mark, if_pos hlt]; exact h1
    · rw [h2, List.length_set]
    · intro j
      rw [h3 j, List.getElem?_set]
      by_cases hj : i = j
      · subst hj
        have c1 : ¬ (i + 1 ≤ i ∧ i < i + 1 + cnt) := by omega
        have c2 : i ≤ i ∧ i < i + (cnt + 1) := by omega
        simp only [if_neg c1, if_pos c2, if_pos hlt, if_true]
      · simp only [if_neg hj]
        by_cases hr : i + 1 ≤ j ∧ j < i + 1 + cnt
        · have c2 : i ≤ j ∧ j < i + (cnt + 1) := by omega
          simp only [if_pos hr, if_pos c2]
        · have c2 : ¬ (i ≤ j ∧ j < i + (cnt + 1)) := by omega
          simp only [if_neg hr, if_neg c2]

theorem boot_mark_none (pg : Nat) :
    ∀ (cnt i : Nat) (cm : List Int), i ≤ cm.length → cm.length < i + cnt →
      boot_mark pg cnt i cm = none := by
  intro cnt
  induction cnt with
  | zero => intro i cm h1 h2; omega
  | succ cnt ih =>
    intro i cm h1 h2
    rw [boot_mark]
    by_cases hlt : i < cm.length
    · rw [if_pos hlt]
      apply ih (i + 1)
      · rw [List.length_set]; omega
      · rw [List.length_set]; omega
    · rw [if_neg hlt]

/-- Freeing the head of a marked run: `free_kpages` on the kernel address of
frame `i`, whose cell holds the length `n` of a run inside the coremap,
returns and clears exactly the cells `i .. i+n-1`. -/
theorem free_kpages_head (vm : VM) (i n addr : Nat) (hb : Booted vm)
    (hhead : vm.coremap[i]? = some (n : Int)) (hle : i + n ≤ vm.coremap.length)
    (haddr : addr = PADDR_TO_KVADDR (add32 ((i * PAGE_SIZE) % WORD) vm.first)) :
    ∃ cm2, free_kpages vm addr = some { vm with coremap := cm2 } ∧
      cm2.length = vm.coremap.length ∧
      ∀ j, cm2[j]? = if i ≤ j ∧ j < i + n then some 0 else vm.coremap[j]? := by
  have hlen := hb.length_lt
  have hilt : i < vm.coremap.length := lt_length_of_cell hhead
  have hi : i * PAGE_SIZE < WORD := by unfold PAGE_SIZE at *; omega
  obtain ⟨_, hidx⟩ := frame_address vm.first i hb.2.1 hi
  obtain ⟨cm2, f1, f2, f3⟩ := free_loop_spec n i vm.coremap hle
  rw [← haddr] at hidx
  have hh : vm.coremap[sub32 (sub32 addr MIPS_KSEG0) vm.first / PAGE_SIZE]? = some (n : Int) := by
    rw [hidx]; exact hhead
  have hl : free_loop (n : Int).toNat (sub32 (sub32 addr MIPS_KSEG0) vm.first / PAGE_SIZE)
      vm.coremap = some cm2 := by
    rw [hidx, Int.toNat_ofNat]; exact f1
  exact ⟨cm2, free_kpages_of vm addr (n : Int) cm2 hh hl, f2, f3⟩

/-- Replacing the coremap of a state that differs from another only in its
coremap. -/
theorem same_but_coremap (vm vm2 : VM) (h : vm2 = { vm with coremap := vm2.coremap })
    (cm : List Int) : ({ vm2 with coremap := cm } : VM) = { vm with coremap := cm } := by
  rw [h]

/-- A successful allocation keeps the allocator booted. -/
theorem allocated_booted (vm vm2 : VM) (n i addr : Nat) (hb : Booted vm)
    (h : AllocatedAt vm vm2 n i addr) : Booted vm2 := by
  obtain ⟨_, _, h3, h4, _, _⟩ := h
  have e1 : vm2.vm_booted = vm.vm_booted := by rw [h3]
  have e2 : vm2.first = vm.first := by rw [h3]
  have e3 : vm2.last = vm.last := by rw [h3]
  have e4 : vm2.total_num_page = vm.total_num_page := by rw [h3]
  unfold Booted
  rw [e1, e2, e3, e4, h4]
  exact hb

/-- A non-zero address returned by `alloc_kpages` comes from an allocation. -/
theorem alloc_kpages_allocated (vm vm2 : VM) (n addr : Nat) (hb : Booted vm) (hn : 1 ≤ n)
    (h : alloc_kpages vm (n : Int) = some (addr, vm2)) (hs : addr ≠ 0) :
    ∃ i, AllocatedAt vm vm2 n i addr := by
  have hlen := hb.length_lt
  have hlen2 : vm.coremap.length < WORD := by unfold PAGE_SIZE at hlen; omega
  rw [alloc_kpages_booted vm _ hb.1] at h
  rcases alloc_scan_spec vm n hn hlen2 _ _ _ _ h with ⟨h0, _⟩ | ⟨i, _, _, _, h1⟩
  · exact absurd h0 hs
  · exact ⟨i, h1⟩

/-- The address handed to `free_kpages` by `as_destroy` for a base stored by
`as_prepare_load` is the address `alloc_kpages` returned. -/
theorem kseg0_round_trip (a : Nat) (h : a < WORD) : add32 (sub32 a MIPS_KSEG0) MIPS_KSEG0 = a := by
  unfold add32 sub32 MIPS_KSEG0 WORD at *
  omega

theorem kvaddr_lt (x : Nat) : PADDR_TO_KVADDR x < WORD := by
  unfold PADDR_TO_KVADDR add32
  exact Nat.mod_lt _ (by decide)

/-- Three allocations followed by the three releases of `as_destroy` give the
coremap back: the runs are pairwise disjoint and each release clears its own
run. -/
theorem three_runs_released (vm vm1 vm2 vm3 : VM) (n1 n2 n3 i1 i2 i3 a1 a2 a3 : Nat)
    (hb : Booted vm) (hn1 : 1 ≤ n1) (hn2 : 1 ≤ n2) (hn3 : 1 ≤ n3)
    (h1 : AllocatedAt vm vm1 n1 i1 a1) (h2 : AllocatedAt vm1 vm2 n2 i2 a2)
    (h3 : AllocatedAt vm2 vm3 n3 i3 a3) :
    ∃ w1 w2, free_kpages vm3 a1 = some w1 ∧ free_kpages w1 a2 = some w2 ∧
      free_kpages w2 a3 = some vm := by
  have hb1 := allocated_booted vm vm1 n1 i1 a1 hb h1
  have hb2 := allocated_booted vm1 vm2 n2 i2 a2 hb1 h2
  have hb3 := allocated_booted vm2 vm3 n3 i3 a3 hb2 h3
  obtain ⟨l1, f1, s1, g1, c1, ad1⟩ := h1
  obtain ⟨l2, f2, s2, g2, c2, ad2⟩ := h2
  obtain ⟨l3, f3, s3, g3, c3, ad3⟩ := h3
  have ef21 : vm1.first = vm.first := by rw [s1]
  have ef32 : vm2.first = vm1.first := by rw [s2]
  have ef43 : vm3.first = vm2.first := by rw [s3]
  -- the runs are pairwise disjoint
  have d12 : ∀ j, i2 ≤ j → j < i2 + n2 → ¬ (i1 ≤ j ∧ j < i1 + n1) := by
    intro j hj1 hj2 hc
    have hz := f2 (j - i2) (by omega)
    have e : i2 + (j - i2) = j := by omega
    rw [e, c1 j] at hz
    by_cases e1 : j = i1
    · rw [if_pos e1] at hz
      have := Option.some.inj hz
      omega
    · rw [if_neg e1, if_pos (by omega)] at hz
      have := Option.some.inj hz
      omega
  have d3 : ∀ j, i3 ≤ j → j < i3 + n3 →
      ¬ (i2 ≤ j ∧ j < i2 + n2) ∧ ¬ (i1 ≤ j ∧ j < i1 + n1) := by
    intro j hj1 hj2
    have hz := f3 (j - i3) (by omega)
    have e : i3 + (j - i3) = j := by omega
    rw [e, c2 j] at hz
    have n2' : ¬ (i2 ≤ j ∧ j < i2 + n2) := by
      intro hc
      by_cases e1 : j = i2
      · rw [if_pos e1] at hz
        have := Option.some.inj hz
        omega
      · rw [if_neg e1, if_pos (by omega)] at hz
        have := Option.some.inj hz
        omega
    refine ⟨n2', ?_⟩
    intro hc
    rw [if_neg (by omega), if_neg (by omega), c1 j] at hz
    by_cases e1 : j = i1
    · rw [if_pos e1] at hz
      have := Option.some.inj hz
      omega
    · rw [if_neg e1, if_pos (by omega)] at hz
      have := Option.some.inj hz
      omega
  -- first release
  have hd1 : vm3.coremap[i1]? = some (n1 : Int) := by
    have q3 := (d3 i1)
    have q2 := (d12 i1)
    rw [c3 i1]
    by_cases e3 : i3 ≤ i1 ∧ i1 < i3 + n3
    · exact absurd ⟨le_refl i1, by omega⟩ (q3 e3.1 e3.2).2
    · rw [if_neg (by omega), if_neg (by omega), c2 i1]
      by_cases e2 : i2 ≤ i1 ∧ i1 < i2 + n2
      · exact absurd ⟨le_refl i1, by omega⟩ (q2 e2.1 e2.2)
      · rw [if_neg (by omega), if_neg (by omega), c1 i1, if_pos rfl]
  have k3 : vm3.first = vm.first := by rw [ef43, ef32, ef21]
  have k2 : vm3.first = vm1.first := by rw [ef43, ef32]
  obtain ⟨m1, r1, rl1, rc1⟩ := free_kpages_head vm3 i1 n1 a1 hb3 hd1
    (by rw [g3, g2, g1]; exact l1) (by rw [k3]; exact ad1)
  have hbw1 : Booted { vm3 with coremap := m1 } := by
    unfold Booted; simp only [rl1]; exact hb3
  -- second release
  have hd2 : m1[i2]? = some (n2 : Int) := by
    rw [rc1 i2, if_neg (d12 i2 (le_refl i2) (by omega)), c3 i2]
    by_cases e3 : i3 ≤ i2 ∧ i2 < i3 + n3
    · exact absurd ⟨le_refl i2, by omega⟩ (d3 i2 e3.1 e3.2).1
    · rw [if_neg (by omega), if_neg (by omega), c2 i2, if_pos rfl]
  obtain ⟨m2, r2, rl2, rc2⟩ := free_kpages_head { vm3 with coremap := m1 } i2 n2 a2 hbw1 hd2
    (by simp only [rl1]; rw [g3, g2]; exact l2) (by simp only; rw [k2]; exact ad2)
  simp only at r2 rl2 rc2
  have hbw2 : Booted { vm3 with coremap := m2 } := by
    unfold Booted; simp only [rl2, rl1]; exact hb3
  -- third release
  have hd3 : m2[i3]? = some (n3 : Int) := by
    rw [rc2 i3, if_neg (d3 i3 (le_refl i3) (by omega)).1, rc1 i3,
      if_neg (d3 i3 (le_refl i3) (by omega)).2, c3 i3, if_pos rfl]
  obtain ⟨m3, r3, rl3, rc3⟩ := free_kpages_head { vm3 with coremap := m2 } i3 n3 a3 hbw2 hd3
    (by simp only [rl2, rl1]; rw [g3]; exact l3) (by simp only; rw [ef43]; exact ad3)
  simp only at r3 rl3 rc3
  -- the coremap is the initial one
  have hcm : m3 = vm.coremap := by
    apply List.ext_getElem?
    intro j
    rw [rc3 j]
    by_cases e3 : i3 ≤ j ∧ j < i3 + n3
    · rw [if_pos e3]
      have hz := f3 (j - i3) (by omega)
      have e : i3 + (j - i3) = j := by omega
      obtain ⟨q2, q1⟩ := d3 j e3.1 e3.2
      rw [e, c2 j, if_neg (by omega), if_neg (by omega), c1 j, if_neg (by omega),
        if_neg (by omega)] at hz
      exact hz.symm
    · rw [if_neg e3, rc2 j]
      by_cases e2 : i2 ≤ j ∧ j < i2 + n2
      · rw [if_pos e2]
        have hz := f2 (j - i2) (by omega)
        have e : i2 + (j - i2) = j := by omega
        have q1 := d12 j e2.1 e2.2
        rw [e, c1 j, if_neg (by omega), if_neg (by omega)] at hz
        exact hz.symm
      · rw [if_neg e2, rc1 j]
        by_cases e1 : i1 ≤ j ∧ j < i1 + n1
        · rw [if_pos e1]
          have hz := f1 (j - i1) (by omega)
          have e : i1 + (j - i1) = j := by omega
          rw [e] at hz
          exact hz.symm
        · rw [if_neg e1, c3 j, if_neg (by omega), if_neg (by omega), c2 j, if_neg (by omega),
            if_neg (by omega), c1 j, if_neg (by omega), if_neg (by omega)]
  have hfin : ({ vm3 with coremap := m3 } : VM) = vm := by
    rw [same_but_coremap vm2 vm3 s3 m3, same_but_coremap vm1 vm2 s2 m3,
      same_but_coremap vm vm1 s1 m3, hcm]
  exact ⟨_, _, r1, r2, by rw [r3, hfin]⟩

theorem toInt32_small (n : Nat) (h : n < 2147483648) : toInt32 n = (n : Int) := by
  unfold toInt32 WORD
  have e : n % 4294967296 = n := Nat.mod_eq_of_lt (by omega)
  rw [e, if_pos h]

theorem sub32_kseg0_ne (a : Nat) (ha : a < WORD) (h : sub32 a MIPS_KSEG0 ≠ sub32 0 MIPS_KSEG0) :
    a ≠ 0 := by
  intro hc
  subst hc
  exact h rfl

/-- What holds of the claim of C19 on the code: when the three allocations of
`as_prepare_load` really succeeded (none of the stored bases is the value
`0 - MIPS_KSEG0` a failed allocation leaves, and both segments have between 1
and `2^31 - 1` pages), the following `as_destroy` returns and gives back the
allocator state, coremap included, as it was before `as_prepare_load`. -/
theorem as_destroy_restores (vm vm3 : VM) (as as2 : addrspace) (hb : Booted vm)
    (hn1 : 1 ≤ as.as_npages1) (hm1 : as.as_npages1 < 2147483648)
    (hn2 : 1 ≤ as.as_npages2) (hm2 : as.as_npages2 < 2147483648)
    (h : as_prepare_load vm as = some (0, as2, vm3))
    (hr1 : as2.as_pbase1 ≠ sub32 0 MIPS_KSEG0) (hr2 : as2.as_pbase2 ≠ sub32 0 MIPS_KSEG0)
    (hr3 : as2.as_stackpbase ≠ sub32 0 MIPS_KSEG0) :
    as_destroy vm3 as2 = some vm := by
  unfold as_prepare_load at h
  simp only [as_zero_region] at h
  rw [toInt32_small _ hm1, toInt32_small _ hm2] at h
  split at h
  · cases q1 : alloc_kpages vm (as.as_npages1 : Int) with
    | none => rw [q1] at h; exact Option.noConfusion h
    | some p1 =>
      obtain ⟨a1, vm1⟩ := p1
      rw [q1] at h
      simp only at h
      split at h
      · exact absurd (Prod.mk.inj (Option.some.inj h)).1 (by decide)
      · cases q2 : alloc_kpages vm1 (as.as_npages2 : Int) with
        | none => rw [q2] at h; exact Option.noConfusion h
        | some p2 =>
          obtain ⟨a2, vm2⟩ := p2
          rw [q2] at h
          simp only at h
          split at h
          · exact absurd (Prod.mk.inj (Option.some.inj h)).1 (by decide)
          · cases q3 : alloc_kpages vm2 (DUMBVM_STACKPAGES : Int) with
            | none => rw [q3] at h; exact Option.noConfusion h
            | some p3 =>
              obtain ⟨a3, vm4⟩ := p3
              rw [q3] at h
              simp only at h
              split at h
              · exact absurd (Prod.mk.inj (Option.some.inj h)).1 (by decide)
              · have hh := Prod.mk.inj (Option.some.inj h)
                have e1 := (Prod.mk.inj hh.2).1
                have e2 : vm4 = vm3 := (Prod.mk.inj hh.2).2
                subst e2
                subst e1
                simp only at hr1 hr2 hr3
                have z1 : a1 ≠ 0 := fun hc => hr1 (by rw [hc])
                have z2 : a2 ≠ 0 := fun hc => hr2 (by rw [hc])
                have z3 : a3 ≠ 0 := fun hc => hr3 (by rw [hc])
                obtain ⟨i1, t1⟩ := alloc_kpages_allocated vm vm1 _ a1 hb hn1 q1 z1
                have hb1 := allocated_booted vm vm1 _ i1 a1 hb t1
                obtain ⟨i2, t2⟩ := alloc_kpages_allocated vm1 vm2 _ a2 hb1 hn2 q2 z2
                have hb2 := allocated_booted vm1 vm2 _ i2 a2 hb1 t2
                obtain ⟨i3, t3⟩ := alloc_kpages_allocated vm2 vm4 DUMBVM_STACKPAGES a3 hb2
                  (by decide) q3 z3
                have w1 : a1 < WORD := by rw [t1.2.2.2.2.2]; exact kvaddr_lt _
                have w2 : a2 < WORD := by rw [t2.2.2.2.2.2]; exact kvaddr_lt _
                have w3 : a3 < WORD := by rw [t3.2.2.2.2.2]; exact kvaddr_lt _
                obtain ⟨x1, x2, y1, y2, y3⟩ := three_runs_released vm vm1 vm2 vm4 _ _ _
                  i1 i2 i3 a1 a2 a3 hb hn1 hn2 (by decide) t1 t2 t3
                unfold as_destroy
                simp only [kseg0_round_trip a1 w1, kseg0_round_trip a2 w2,
                  kseg0_round_trip a3 w3, y1, y2, y3]
  · exact Option.noConfusion h

/-- An instance of `as_destroy_restores` on a 32-frame machine: the two
one-page segments and the 12-page stack are allocated at frames 1, 2 and
3..14, and `as_destroy` gives back the machine as it was. -/
theorem as_destroy_restores_example :
    as_prepare_load ProcSyscalls.vm32 as_two_regions
      = some (0, { as_two_regions with as_pbase1 := 0x2000, as_pbase2 := 0x3000,
                                        as_stackpbase := 0x4000 },
                 { ProcSyscalls.vm32 with
                   coremap := [1, 1, 1, 12] ++ List.replicate 11 (-12)
                                ++ List.replicate 17 0 }) ∧
    as_destroy { ProcSyscalls.vm32 with
                 coremap := [1, 1, 1, 12] ++ List.replicate 11 (-12)
                              ++ List.replicate 17 0 }
               { as_two_regions with as_pbase1 := 0x2000, as_pbase2 := 0x3000,
                                     as_stackpbase := 0x4000 }
      = some ProcSyscalls.vm32 :=
  ⟨by decide,
   as_destroy_restores ProcSyscalls.vm32 _ as_two_regions _ (by decide) (by decide) (by decide) (by decide) (by decide)
     (by decide) (by decide) (by decide) (by decide)⟩

end Dumbvm

namespace ProcSyscalls

open Dumbvm

set_option linter.unusedVariables false

/-! ## Heap and table lemmas -/

theorem lt_of_hread {heap : List (Option proc_table)} {a : Nat} {r : proc_table}
    (h : hread heap a = some r) : a < heap.length := by
  by_contra hc
  unfold hread at h
  rw [List.getElem?_eq_none (Nat.le_of_not_lt hc)] at h
  exact Option.noConfusion h

theorem hread_set_ne (heap : List (Option proc_table)) (a b : Nat) (v : Option proc_table)
    (h : a ≠ b) : hread (heap.set a v) b = hread heap b := by
  unfold hread
  rw [List.getElem?_set_ne h]

theorem hread_set_none (heap : List (Option proc_table)) (a : Nat) :
    hread (heap.set a none) a = none := by
  unfold hread
  rw [List.getElem?_set]
  simp only [if_true]
  by_cases h : a < heap.length
  · rw [if_pos h]
  · rw [if_neg h]

theorem hread_set_some (heap : List (Option proc_table)) (a : Nat) (r : proc_table)
    (h : a < heap.length) : hread (heap.set a (some r)) a = some r := by
  unfold hread
  rw [List.getElem?_set_self h]

theorem kfree_of_hread {heap : List (Option proc_table)} {a : Nat} {r : proc_table}
    (h : hread heap a = some r) : kfree heap a = some (heap.set a none) := by
  unfold kfree
  rw [h]

/-- The loop of `proc_table_cleanup` empties the first slot that holds the
pointer. -/
theorem cleanup_loop_spec (p k : Nat) :
    ∀ (cnt i : Nat) (pt : List (Option Nat)), i ≤ k → k < i + cnt → k < pt.length →
      pt[k]? = some (some p) → (∀ j, i ≤ j → j < k → pt[j]? ≠ some (some p)) →
      cleanup_loop p cnt i pt = some (pt.set k none) := by
  intro cnt
  induction cnt with
  | zero => intro i pt h1 h2; omega
  | succ cnt ih =>
    intro i pt h1 h2 h3 h4 h5
    rw [cleanup_loop]
    by_cases e : i = k
    · subst e
      rw [h4]
      simp only [if_true]
      unfold array_set_null
      rw [if_pos h3]
    · have hi : i < pt.length := by omega
      rw [List.getElem?_eq_getElem hi]
      have hne : pt[i] ≠ some p := by
        intro hc
        apply h5 i (le_refl i) (by omega)
        rw [List.getElem?_eq_getElem hi, hc]
      simp only [if_neg hne]
      exact ih (i + 1) pt (by omega) (by omega) h3 h4
        (fun j hj1 hj2 => h5 j (by omega) hj2)

/-- What `proc_table_cleanup` does to a record that sits in exactly one slot. -/
theorem proc_table_cleanup_spec (s : PState) (t k : Nat) (r : proc_table)
    (hk : s.pt[k]? = some (some t)) (huniq : ∀ j, s.pt[j]? = some (some t) → j = k)
    (hrec : hread s.heap t = some r) :
    proc_table_cleanup s t = some { s with pt := s.pt.set k none, heap := s.heap.set t none } ∧
    RecordRemoved s { s with pt := s.pt.set k none, heap := s.heap.set t none } t k := by
  have hklt : k < s.pt.length := by
    by_contra hc
    rw [List.getElem?_eq_none (Nat.le_of_not_lt hc)] at hk
    exact Option.noConfusion hk
  have hloop := cleanup_loop_spec t k s.pt.length 0 s.pt (Nat.zero_le k) (by omega) hklt hk
    (fun j _ hj2 hc => by have := huniq j hc; omega)
  constructor
  · unfold proc_table_cleanup
    simp only [hloop, kfree_of_hread hrec]
  · refine ⟨?_, ?_, ?_, ?_, ?_, rfl⟩
    · intro j hc
      simp only at hc
      by_cases e : j = k
      · subst e
        rw [List.getElem?_set_self hklt] at hc
        exact absurd (Option.some.inj hc) (by simp)
      · rw [List.getElem?_set_ne (fun h => e h.symm)] at hc
        exact e (huniq j hc)
    · simp only
      rw [List.getElem?_set_self hklt]
    · intro j hj
      simp only
      rw [List.getElem?_set_ne (fun h => hj h.symm)]
    · intro a ha
      exact hread_set_ne s.heap t a none (fun h => ha h.symm)
    · exact hread_set_none s.heap t

/-! ## `sys_waitpid`: the error paths -/

/-- C13: for every pid, caller, table state and outcome of `copyout`,
`sys_waitpid` with a non-zero `options` returns EINVAL, stores nothing and
leaves the process table (slots and records) as it was. -/
theorem sys_waitpid_bad_options (s : PState) (curproc : Nat) (pid options copyout_result : Int)
    (h : options ≠ 0) :
    sys_waitpid s curproc pid options copyout_result = .returned EINVAL none none s := by
  unfold sys_waitpid
  rw [if_pos h]

theorem sys_waitpid_bad_options_witness :
    sys_waitpid pstate_sample 100 4 1 0 = .returned EINVAL none none pstate_sample :=
  sys_waitpid_bad_options pstate_sample 100 4 1 0 (by decide)

/-- C14: with `options = 0`, on every table state: `sys_waitpid` returns ESRCH
when `pid` is outside `[PID_MIN, PID_MAX]`, and when `pid` is inside but the
index `pid - 2` is not below the count of the table; it returns ECHILD when
the slot at index `pid - 2` is empty and when it holds a record whose parent
is not the caller.  In each case nothing is stored and the process table
(slots and records) is as it was. -/
theorem sys_waitpid_errors (s : PState) (curproc : Nat) (pid copyout_result : Int) :
    (pid > PID_MAX ∨ pid < PID_MIN →
      sys_waitpid s curproc pid 0 copyout_result = .returned ESRCH none none s) ∧
    (PID_MIN ≤ pid → pid ≤ PID_MAX → (s.pt.length : Int) ≤ pid - 2 →
      sys_waitpid s curproc pid 0 copyout_result = .returned ESRCH none none s) ∧
    (PID_MIN ≤ pid → pid ≤ PID_MAX → ∀ k : Nat, (k : Int) = pid - 2 →
      s.pt[k]? = some none →
      sys_waitpid s curproc pid 0 copyout_result = .returned ECHILD none none s) ∧
    (PID_MIN ≤ pid → pid ≤ PID_MAX → ∀ (k a : Nat) (r : proc_table), (k : Int) = pid - 2 →
      s.pt[k]? = some (some a) → hread s.heap a = some r → r.parent ≠ some curproc →
      sys_waitpid s curproc pid 0 copyout_result = .returned ECHILD none none s) := by
  have inrange : ∀ k : Nat, PID_MIN ≤ pid → pid ≤ PID_MAX → (k : Int) = pid - 2 →
      ¬ (pid > PID_MAX ∨ pid < PID_MIN) ∧ sub32 (toU32 pid) 2 = k ∧ toU32 (pid - 2) = k := by
    intro k h1 h2 h3
    unfold PID_MIN PID_MAX sub32 toU32 WORD at *
    omega
  refine ⟨?_, ?_, ?_, ?_⟩
  · intro h
    unfold sys_waitpid
    simp only [ne_eq, not_true_eq_false, if_false, if_pos h]
  · intro h1 h2 h3
    obtain ⟨a1, a2, _⟩ := inrange (pid - 2).toNat h1 h2 (by unfold PID_MIN at h1; omega)
    have a3 : sub32 (toU32 pid) 2 ≥ s.pt.length := by rw [a2]; omega
    unfold sys_waitpid
    simp only [ne_eq, not_true_eq_false, if_false, if_neg a1, if_pos a3]
  · intro h1 h2 k hk hslot
    obtain ⟨a1, a2, a4⟩ := inrange k h1 h2 hk
    have hklt : k < s.pt.length := by
      by_contra hc
      rw [List.getElem?_eq_none (Nat.le_of_not_lt hc)] at hslot
      exact Option.noConfusion hslot
    have a3 : ¬ sub32 (toU32 pid) 2 ≥ s.pt.length := by rw [a2]; omega
    unfold sys_waitpid
    simp only [ne_eq, not_true_eq_false, if_false, if_neg a1, if_neg a3, a4, hslot]
  · intro h1 h2 k a r hk hslot hrec hpar
    obtain ⟨a1, a2, a4⟩ := inrange k h1 h2 hk
    have hklt : k < s.pt.length := by
      by_contra hc
      rw [List.getElem?_eq_none (Nat.le_of_not_lt hc)] at hslot
      exact Option.noConfusion hslot
    have a3 : ¬ sub32 (toU32 pid) 2 ≥ s.pt.length := by rw [a2]; omega
    unfold sys_waitpid
    simp only [ne_eq, not_true_eq_false, if_false, if_neg a1, if_neg a3, a4, hslot, hrec]
    rw [if_pos hpar]

theorem sys_waitpid_errors_witness :
    sys_waitpid pstate_sample 200 4 0 0 = .returned ECHILD none none pstate_sample :=
  (sys_waitpid_errors pstate_sample 200 4 0).2.2.2 (by decide) (by decide) 2 3
    { pid := 4, parent := some 100, exitcode := 20, exit_status := true, proc := none }
    (by decide) (by decide) (by decide) (by decide)

/-! ## `sys_fork` -/

/-- C16: for every parent trapframe `tf`: (1) when the address space is
copied, the trapframe copy is allocated and `thread_fork` succeeds,
`sys_fork` returns 0, hands to the child the trapframe that equals `tf` in
every field except `tf_v0 = 0` and `tf_epc = (tf.tf_epc + 4) mod 2^32`, and
stores through `retval` the pid held in the record of the new process;
(2) whatever the outcome, a trapframe handed to the child is that trapframe,
and a return value 0 comes with the pid of the new record stored through
`retval`. -/
theorem sys_fork_child_trapframe (vm : VM) (s : PState) (cur_as : Option addrspace)
    (np : NewProc) (tf : trapframe) (as_kmalloc_ok tf_kmalloc_ok : Bool)
    (thread_fork_result : Int) :
    (∀ (newp t : Nat) (old nas : addrspace) (vm1 : VM) (r : proc_table),
      np = .created newp t → cur_as = some old →
      as_copy vm old as_kmalloc_ok = some (0, some nas, vm1) →
      tf_kmalloc_ok = true → thread_fork_result = 0 → hread s.heap t = some r →
      sys_fork vm s cur_as np tf as_kmalloc_ok tf_kmalloc_ok thread_fork_result
        = some { ret := 0, retval := some r.pid,
                 handed := some { tf with tf_v0 := 0, tf_epc := (tf.tf_epc + 4) % WORD },
                 child_as := some nas, vm := vm1, s := s }) ∧
    (∀ res, sys_fork vm s cur_as np tf as_kmalloc_ok tf_kmalloc_ok thread_fork_result
        = some res →
      (∀ ntf, res.handed = some ntf →
        ntf = { tf with tf_v0 := 0, tf_epc := (tf.tf_epc + 4) % WORD }) ∧
      (res.ret = 0 →
        res.handed = some { tf with tf_v0 := 0, tf_epc := (tf.tf_epc + 4) % WORD } ∧
        ∃ newp t r, np = .created newp t ∧ hread s.heap t = some r ∧
          res.retval = some r.pid)) := by
  constructor
  · intro newp t old nas vm1 r h1 h2 h3 h4 h5 h6
    subst h1; subst h2; subst h4; subst h5
    unfold sys_fork
    simp only [h3, h6, ne_eq, not_true_eq_false, if_false, add32]
    simp
  · intro res h
    unfold sys_fork at h
    repeat' split at h
    all_goals first | exact Option.noConfusion h | skip
    all_goals (have e := Option.some.inj h; subst e)
    all_goals simp_all [ENOMEM, ENPROC, add32]
    all_goals (refine ⟨_, _, ⟨rfl, rfl⟩, _, ?_, rfl⟩; assumption)

theorem sys_fork_child_trapframe_witness :
    sys_fork vm32 pstate_forked (some (as_sample 0x500000)) (.created 300 4) tf_sample
        true true 0
      = some { ret := 0, retval := some 5,
               handed := some { tf_sample with tf_v0 := 0,
                                               tf_epc := (tf_sample.tf_epc + 4) % WORD },
               child_as := some as_copied, vm := vm32_copied, s := pstate_forked } :=
  (sys_fork_child_trapframe vm32 pstate_forked (some (as_sample 0x500000)) (.created 300 4)
    tf_sample true true 0).1 300 4 (as_sample 0x500000) as_copied vm32_copied
    { pid := 5, parent := some 100, exitcode := 0, exit_status := false, proc := some 300 }
    rfl rfl (by decide) rfl rfl (by decide)

/-- C15: on a process table in which the record `t` of the new process
container sits in exactly one slot `k`, every failure of `sys_fork` after the
container was created returns the corresponding non-zero error and leaves a
table without that record, every other slot and record being unchanged:
(1) when the address-space copy fails with the error `e`, `sys_fork` returns
`e`; (2) when the trapframe cannot be allocated, it returns ENOMEM; (3) when
`thread_fork` fails with `r`, it returns `r`.  In (2) and (3) the address
space just copied is destroyed first, which is assumed to be defined. -/
theorem sys_fork_failure_rolls_back (vm : VM) (s : PState) (old : addrspace)
    (newp t k : Nat) (rec : proc_table) (tf : trapframe)
    (as_kmalloc_ok tf_kmalloc_ok : Bool) (thread_fork_result : Int)
    (hk : s.pt[k]? = some (some t)) (huniq : ∀ j, s.pt[j]? = some (some t) → j = k)
    (hrec : hread s.heap t = some rec) :
    (∀ (e : Int) (a : Option addrspace) (vm1 : VM),
      as_copy vm old as_kmalloc_ok = some (e, a, vm1) → e ≠ 0 →
      ∃ res, sys_fork vm s (some old) (.created newp t) tf as_kmalloc_ok tf_kmalloc_ok
          thread_fork_result = some res ∧
        res.ret = e ∧ res.ret ≠ 0 ∧ res.retval = none ∧ RecordRemoved s res.s t k) ∧
    (∀ (nas : addrspace) (vm1 vm2 : VM),
      as_copy vm old as_kmalloc_ok = some (0, some nas, vm1) → tf_kmalloc_ok = false →
      as_destroy vm1 nas = some vm2 →
      ∃ res, sys_fork vm s (some old) (.created newp t) tf as_kmalloc_ok tf_kmalloc_ok
          thread_fork_result = some res ∧
        res.ret = ENOMEM ∧ res.ret ≠ 0 ∧ res.retval = none ∧ RecordRemoved s res.s t k) ∧
    (∀ (nas : addrspace) (vm1 vm2 : VM),
      as_copy vm old as_kmalloc_ok = some (0, some nas, vm1) → tf_kmalloc_ok = true →
      thread_fork_result ≠ 0 → as_destroy vm1 nas = some vm2 →
      ∃ res, sys_fork vm s (some old) (.created newp t) tf as_kmalloc_ok tf_kmalloc_ok
          thread_fork_result = some res ∧
        res.ret = thread_fork_result ∧ res.ret ≠ 0 ∧ res.retval = none ∧
        RecordRemoved s res.s t k) := by
  obtain ⟨hc, hr⟩ := proc_table_cleanup_spec s t k rec hk huniq hrec
  refine ⟨?_, ?_, ?_⟩
  · intro e a vm1 h1 h2
    refine ⟨{ ret := e, retval := none, handed := none, child_as := a, vm := vm1,
              s := { s with pt := s.pt.set k none, heap := s.heap.set t none } },
      ?_, rfl, h2, rfl, hr⟩
    unfold sys_fork
    simp only [h1, hc, ne_eq, h2, not_false_eq_true, if_true]
  · intro nas vm1 vm2 h1 h2 h3
    refine ⟨{ ret := ENOMEM, retval := none, handed := none, child_as := none, vm := vm2,
              s := { s with pt := s.pt.set k none, heap := s.heap.set t none } },
      ?_, rfl, ?_, rfl, hr⟩
    · unfold sys_fork
      simp only [h1, h2, h3, hc, ne_eq, not_true_eq_false, if_false, if_true]
    · exact (by decide : ENOMEM ≠ 0)
  · intro nas vm1 vm2 h1 h2 h3 h4
    refine ⟨{ ret := thread_fork_result, retval := none,
              handed := some { tf with tf_v0 := 0, tf_epc := add32 tf.tf_epc 4 },
              child_as := none, vm := vm2,
              s := { s with pt := s.pt.set k none, heap := s.heap.set t none } },
      ?_, rfl, h3, rfl, hr⟩
    unfold sys_fork
    simp only [h1, h2, h4, hc, ne_eq, h3, not_true_eq_false, not_false_eq_true, if_false,
      if_true]
    simp

theorem pstate_forked_unique (j : Nat) (h : pstate_forked.pt[j]? = some (some 4)) : j = 3 := by
  match j, h with
  | 0, h => exact absurd h (by decide)
  | 1, h => exact absurd h (by decide)
  | 2, h => exact absurd h (by decide)
  | 3, _ => rfl
  | n + 4, h => exact absurd h (by simp [pstate_forked, pstate_sample])

theorem sys_fork_failure_rolls_back_witness :
    ∃ res, sys_fork vm32 pstate_forked (some (as_sample 0x500000)) (.created 300 4) tf_sample
        true true EAGAIN = some res ∧
      res.ret = EAGAIN ∧ res.ret ≠ 0 ∧ res.retval = none ∧
      RecordRemoved pstate_forked res.s 4 3 :=
  (sys_fork_failure_rolls_back vm32 pstate_forked (as_sample 0x500000) 300 4 3
    { pid := 5, parent := some 100, exitcode := 0, exit_status := false, proc := some 300 }
    tf_sample true true EAGAIN (by decide) pstate_forked_unique (by decide)).2.2
    as_copied vm32_copied vm32 (by decide) rfl (by decide) (by decide)

/-! ## The sweep of `sys__exit` -/

theorem lt_length_of_slot {pt : List (Option Nat)} {i : Nat} {x : Option Nat}
    (h : pt[i]? = some x) : i < pt.length := by
  by_contra hc
  rw [List.getElem?_eq_none (Nat.le_of_not_lt hc)] at h
  exact Option.noConfusion h

/-- In a well-formed table a record sits in one slot only. -/
theorem wf_no_alias (s : PState) (hwf : TableWF s) (i j a : Nat)
    (hi : s.pt[i]? = some (some a)) (hj : s.pt[j]? = some (some a)) : i = j := by
  obtain ⟨r1, h1, p1⟩ := hwf.2 i a hi
  obtain ⟨r2, h2, p2⟩ := hwf.2 j a hj
  rw [h1] at h2
  have := Option.some.inj h2
  subst this
  omega

/-- In a well-formed table the index `pid - 2` computed from the record in
slot `i` is `i`. -/
theorem wf_index (s : PState) (hwf : TableWF s) (i a : Nat) (r : proc_table)
    (hi : s.pt[i]? = some (some a)) (hr : hread s.heap a = some r) :
    toU32 (r.pid - 2) = i := by
  obtain ⟨r1, h1, p1⟩ := hwf.2 i a hi
  rw [hr] at h1
  have := Option.some.inj h1
  subst this
  have hlt := lt_length_of_slot hi
  have hw := hwf.1
  unfold toU32 WORD at *
  omega

/-- What the sweep does from slot `i` on, in a well-formed table: it returns
a well-formed table in which the slots below `i` and the empty slots are as
before, every record from slot `i` on has become what `after_sweep` says (its
slot is emptied when it is released), and the records in no slot from `i` on
are untouched. -/
theorem exit_sweep_spec (P : Nat) :
    ∀ (cnt i : Nat) (s : PState), TableWF s → i + cnt = s.pt.length →
      ∃ s2, exit_sweep P cnt i s = some s2 ∧ TableWF s2 ∧ s2.kproc = s.kproc ∧
        s2.pt.length = s.pt.length ∧
        (∀ j : Nat, j < i → s2.pt[j]? = s.pt[j]?) ∧
        (∀ j : Nat, s.pt[j]? = some none → s2.pt[j]? = some none) ∧
        (∀ (j a : Nat) (r : proc_table), i ≤ j → s.pt[j]? = some (some a) →
          hread s.heap a = some r →
          hread s2.heap a = after_sweep P r ∧
          (after_sweep P r = none → s2.pt[j]? = some none) ∧
          (after_sweep P r ≠ none → s2.pt[j]? = some (some a))) ∧
        (∀ b : Nat, (∀ j : Nat, i ≤ j → s.pt[j]? ≠ some (some b)) →
          hread s2.heap b = hread s.heap b) := by
  intro cnt
  induction cnt with
  | zero =>
    intro i s hwf hlen
    refine ⟨s, rfl, hwf, rfl, rfl, fun j _ => rfl, fun j h => h, ?_, fun b _ => rfl⟩
    intro j a r hj hslot _
    have := lt_length_of_slot hslot
    omega
  | succ cnt ih =>
    intro i s hwf hlen
    have hi : i < s.pt.length := by omega
    cases hslot : s.pt[i]? with
    | none =>
      rw [List.getElem?_eq_getElem hi] at hslot
      exact Option.noConfusion hslot
    | some x =>
      cases x with
      | none =>
        obtain ⟨s2, e1, e2, e3, e4, c1, c2, c3, c4⟩ := ih (i + 1) s hwf (by omega)
        refine ⟨s2, ?_, e2, e3, e4, fun j hj => c1 j (by omega), c2, ?_, ?_⟩
        · rw [exit_sweep, hslot]; exact e1
        · intro j a r hj hs hr
          have hne : j ≠ i := by
            intro e; subst e; rw [hslot] at hs
            exact absurd (Option.some.inj hs) (by simp)
          exact c3 j a r (by omega) hs hr
        · intro b hb
          exact c4 b (fun j hj => hb j (by omega))
      | some a =>
        obtain ⟨r, hr, hpid⟩ := hwf.2 i a hslot
        have hidx := wf_index s hwf i a r hslot hr
        have halt := lt_of_hread hr
        -- the step on slot `i` and the rest of the sweep, put together
        have combine : ∀ s1 : PState, exit_sweep P (cnt + 1) i s = exit_sweep P cnt (i + 1) s1 →
            s1.kproc = s.kproc → s1.pt.length = s.pt.length →
            (∀ j : Nat, j ≠ i → s1.pt[j]? = s.pt[j]?) →
            (after_sweep P r = none → s1.pt[i]? = some none) →
            (after_sweep P r ≠ none → s1.pt[i]? = some (some a)) →
            (∀ b : Nat, b ≠ a → hread s1.heap b = hread s.heap b) →
            hread s1.heap a = after_sweep P r →
            (∀ r2, after_sweep P r = some r2 → r2.pid = r.pid) →
            ∃ s2, exit_sweep P (cnt + 1) i s = some s2 ∧ TableWF s2 ∧ s2.kproc = s.kproc ∧
              s2.pt.length = s.pt.length ∧
              (∀ j : Nat, j < i → s2.pt[j]? = s.pt[j]?) ∧
              (∀ j : Nat, s.pt[j]? = some none → s2.pt[j]? = some none) ∧
              (∀ (j a : Nat) (r : proc_table), i ≤ j → s.pt[j]? = some (some a) →
          hread s.heap a = some r →
                hread s2.heap a = after_sweep P r ∧
                (after_sweep P r = none → s2.pt[j]? = some none) ∧
                (after_sweep P r ≠ none → s2.pt[j]? = some (some a))) ∧
              (∀ b : Nat, (∀ j : Nat, i ≤ j → s.pt[j]? ≠ some (some b)) →
                hread s2.heap b = hread s.heap b) := by
          intro s1 hstep p1 p2 p3 p4a p4b p5 p6 p7
          have hwf1 : TableWF s1 := by
            refine ⟨by rw [p2]; exact hwf.1, ?_⟩
            intro j b hb
            by_cases e : j = i
            · subst e
              by_cases hn : after_sweep P r = none
              · rw [p4a hn] at hb
                exact absurd (Option.some.inj hb) (by simp)
              · rw [p4b hn] at hb
                have hab : a = b := Option.some.inj (Option.some.inj hb)
                subst hab
                cases hq : after_sweep P r with
                | none => exact absurd hq hn
                | some r2 =>
                  refine ⟨r2, by rw [p6, hq], ?_⟩
                  rw [p7 r2 hq]; exact hpid
            · rw [p3 j e] at hb
              obtain ⟨r3, h3, q3⟩ := hwf.2 j b hb
              have hba : b ≠ a := by
                intro hc
                subst hc
                exact e (wf_no_alias s hwf j i b hb hslot)
              exact ⟨r3, by rw [p5 b hba]; exact h3, q3⟩
          obtain ⟨s2, e1, e2, e3, e4, c1, c2, c3, c4⟩ := ih (i + 1) s1 hwf1 (by omega)
          have ha_later : ∀ j : Nat, i + 1 ≤ j → s1.pt[j]? ≠ some (some a) := by
            intro j hj hc
            rw [p3 j (by omega)] at hc
            have := wf_no_alias s hwf j i a hc hslot
            omega
          refine ⟨s2, by rw [hstep]; exact e1, e2, by rw [e3, p1], by rw [e4, p2], ?_, ?_, ?_, ?_⟩
          · intro j hj
            rw [c1 j (by omega), p3 j (by omega)]
          · intro j hj
            have hne : j ≠ i := by
              intro e; subst e; rw [hslot] at hj
              exact absurd (Option.some.inj hj) (by simp)
            exact c2 j (by rw [p3 j hne]; exact hj)
          · intro j a2 r2 hj hs hr2
            by_cases e : j = i
            · subst e
              rw [hslot] at hs
              have hab : a = a2 := Option.some.inj (Option.some.inj hs)
              subst hab
              rw [hr] at hr2
              have hrr : r = r2 := Option.some.inj hr2
              subst hrr
              refine ⟨by rw [c4 a ha_later, p6], ?_, ?_⟩
              · intro hn
                rw [c1 j (by omega)]; exact p4a hn
              · intro hn
                rw [c1 j (by omega)]; exact p4b hn
            · have hba : a2 ≠ a := by
                intro hc
                subst hc
                exact e (wf_no_alias s hwf j i a2 hs hslot)
              exact c3 j a2 r2 (by omega) (by rw [p3 j e]; exact hs)
                (by rw [p5 a2 hba]; exact hr2)
          · intro b hb
            have hba : b ≠ a := by
              intro hc
              subst hc
              exact hb i (le_refl i) hslot
            rw [c4 b (fun j hj => by rw [p3 j (by omega)]; exact hb j (by omega)), p5 b hba]
        by_cases hc1 : r.parent = some P ∧ r.exit_status = true
        · have has : after_sweep P r = none := by unfold after_sweep; rw [if_pos hc1]
          apply combine { s with pt := s.pt.set i none, heap := s.heap.set a none }
          · rw [exit_sweep, hslot]
            simp only [hr, if_pos hc1, hidx, array_set_null, if_pos hi, kfree]
          · rfl
          · simp only [List.length_set]
          · intro j hj
            simp only
            rw [List.getElem?_set_ne (fun h => hj h.symm)]
          · intro _
            simp only
            rw [List.getElem?_set_self hi]
          · intro hn; exact absurd has hn
          · intro b hb
            exact hread_set_ne s.heap a b none (fun h => hb h.symm)
          · rw [has]; exact hread_set_none s.heap a
          · intro r2 h2; rw [has] at h2; exact Option.noConfusion h2
        · by_cases hc2 : r.parent = some P
          · have hne : r.exit_status = false := by
              cases hst : r.exit_status with
              | false => rfl
              | true => exact absurd ⟨hc2, hst⟩ hc1
            have has : after_sweep P r = some { r with parent := none } := by
              unfold after_sweep; rw [if_neg hc1, if_pos hc2]
            apply combine { s with heap := hwrite s.heap a { r with parent := none } }
            · rw [exit_sweep, hslot]
              simp only [hr, if_neg hc1, if_pos (And.intro hc2 hne)]
            · rfl
            · rfl
            · intro j _; rfl
            · intro hn; rw [has] at hn; exact Option.noConfusion hn
            · intro _; exact hslot
            · intro b hb
              exact hread_set_ne s.heap a b _ (fun h => hb h.symm)
            · rw [has]; exact hread_set_some s.heap a _ halt
            · intro r2 h2
              rw [has] at h2
              rw [← Option.some.inj h2]
          · have has : after_sweep P r = some r := by
              unfold after_sweep; rw [if_neg hc1, if_neg hc2]
            apply combine s
            · rw [exit_sweep, hslot]
              have hc3 : ¬ (r.parent = some P ∧ r.exit_status = false) := fun h => hc2 h.1
              simp only [hr, if_neg hc1, if_neg hc3]
            · rfl
            · rfl
            · intro j _; rfl
            · intro hn; rw [has] at hn; exact Option.noConfusion hn
            · intro _; exact hslot
            · intro b _; rfl
            · rw [has]; exact hr
            · intro r2 h2
              rw [has] at h2
              rw [← Option.some.inj h2]

/-! ## `sys__exit` -/

/-- What `sys__exit` does to a well-formed table, for an exiting process `P`
whose record `rP` at address `t` sits in slot `k` and is not its own child:
it returns a well-formed table; the record of `P` is released and its slot
emptied when it has no parent or the kernel process as parent, and otherwise
stays in its slot with the encoded status, the exited flag set and the
back-reference cleared; every other record has become what `after_sweep`
says; empty slots stay empty. -/
theorem sys__exit_spec (s : PState) (P t k : Nat) (rP : proc_table) (c : Int)
    (hwf : TableWF s) (hk : s.pt[k]? = some (some t)) (hr : hread s.heap t = some rP)
    (hself : rP.parent ≠ some P) :
    ∃ s2, sys__exit s P t c = some s2 ∧ TableWF s2 ∧ s2.kproc = s.kproc ∧
      s2.pt.length = s.pt.length ∧
      (∀ j : Nat, s.pt[j]? = some none → s2.pt[j]? = some none) ∧
      (rP.parent = none ∨ rP.parent = some s.kproc →
        s2.pt[k]? = some none ∧ hread s2.heap t = none) ∧
      (¬ (rP.parent = none ∨ rP.parent = some s.kproc) →
        s2.pt[k]? = some (some t) ∧
        hread s2.heap t = some (mark_exited rP c)) ∧
      (∀ (j a : Nat) (r : proc_table), j ≠ k → s.pt[j]? = some (some a) →
        hread s.heap a = some r →
        hread s2.heap a = after_sweep P r ∧
        (after_sweep P r = none → s2.pt[j]? = some none) ∧
        (after_sweep P r ≠ none → s2.pt[j]? = some (some a))) := by
  have htlt := lt_of_hread hr
  have hklt := lt_length_of_slot hk
  obtain ⟨rk, hrk, hpid⟩ := hwf.2 k t hk
  rw [hr] at hrk
  have := Option.some.inj hrk
  subst this
  -- the state after lines 93-95
  have hwf0 : TableWF { s with heap := hwrite s.heap t (mark_exited rP c) } := by
    refine ⟨hwf.1, ?_⟩
    intro j b hb
    by_cases e : b = t
    · subst e
      have : j = k := wf_no_alias s hwf j k b hb hk
      subst this
      exact ⟨_, hread_set_some s.heap b _ htlt, hpid⟩
    · obtain ⟨r3, h3, q3⟩ := hwf.2 j b hb
      exact ⟨r3, by rw [← h3]; exact hread_set_ne s.heap t b _ (fun h => e h.symm), q3⟩
  obtain ⟨s1, e1, e2, e3, e4, _, c2, c3, _⟩ := exit_sweep_spec P s.pt.length 0 _ hwf0
    (by simp)
  have hown : after_sweep P (mark_exited rP c) = some (mark_exited rP c) := by
    unfold after_sweep mark_exited
    simp only [hself, false_and, if_false]
  obtain ⟨o1, _, o3⟩ := c3 k t _ (Nat.zero_le k) hk (hread_set_some s.heap t _ htlt)
  rw [hown] at o1
  have o4 : s1.pt[k]? = some (some t) := o3 (by rw [hown]; simp)
  have hothers : ∀ (j a : Nat) (r : proc_table), j ≠ k → s.pt[j]? = some (some a) →
      hread s.heap a = some r →
      a ≠ t ∧ hread s1.heap a = after_sweep P r ∧
      (after_sweep P r = none → s1.pt[j]? = some none) ∧
      (after_sweep P r ≠ none → s1.pt[j]? = some (some a)) := by
    intro j a r hj hs hra
    have hat : a ≠ t := by
      intro hc
      subst hc
      exact hj (wf_no_alias s hwf j k a hs hk)
    have := c3 j a r (Nat.zero_le j) hs
      (by rw [← hra]; exact hread_set_ne s.heap t a _ (fun h => hat h.symm))
    exact ⟨hat, this⟩
  have hstart : sys__exit s P t c =
      match hread s1.heap t with
      | none => none
      | some r2 =>
        if r2.parent = none ∨ r2.parent = some s1.kproc then
          match array_set_null s1.pt (toU32 (r2.pid - 2)) with
          | none => none
          | some pt3 =>
            match kfree s1.heap t with
            | none => none
            | some heap3 => some { s1 with pt := pt3, heap := heap3 }
        else some s1 := by
    unfold sys__exit
    simp only [hr]
    rw [e1]
  have e3b : s1.kproc = s.kproc := e3
  have hcond : ((mark_exited rP c).parent = none ∨ (mark_exited rP c).parent = some s1.kproc)
      ↔ (rP.parent = none ∨ rP.parent = some s.kproc) := by
    rw [e3b]; exact Iff.rfl
  rw [hstart, o1]
  simp only
  by_cases hpar : rP.parent = none ∨ rP.parent = some s.kproc
  · have hidx : toU32 ((mark_exited rP c).pid - 2) = k := wf_index s hwf k t rP hk hr
    have hk1 : k < s1.pt.length := by rw [e4]; exact hklt
    refine ⟨{ s1 with pt := s1.pt.set k none, heap := s1.heap.set t none }, ?_, ?_, e3, ?_,
      ?_, ?_, ?_, ?_⟩
    · simp only [if_pos (hcond.mpr hpar), hidx, array_set_null, if_pos hk1, kfree, o1]
    · refine ⟨by simp only [List.length_set]; exact e2.1, ?_⟩
      intro j b hb
      simp only at hb
      by_cases e : j = k
      · subst e
        rw [List.getElem?_set_self hk1] at hb
        exact absurd (Option.some.inj hb) (by simp)
      · rw [List.getElem?_set_ne (fun h => e h.symm)] at hb
        have hbt : b ≠ t := by
          intro hc
          subst hc
          exact e (wf_no_alias s1 e2 j k b hb o4)
        obtain ⟨r3, h3, q3⟩ := e2.2 j b hb
        exact ⟨r3, by rw [← h3]; exact hread_set_ne s1.heap t b none (fun h => hbt h.symm), q3⟩
    · simp only [List.length_set]; exact e4
    · intro j hj
      simp only
      by_cases e : j = k
      · subst e; rw [List.getElem?_set_self hk1]
      · rw [List.getElem?_set_ne (fun h => e h.symm)]; exact c2 j hj
    · intro _
      exact ⟨by simp only; rw [List.getElem?_set_self hk1], hread_set_none s1.heap t⟩
    · intro hn; exact absurd hpar hn
    · intro j a r hj hs hra
      obtain ⟨hat, q1, q2, q3⟩ := hothers j a r hj hs hra
      refine ⟨?_, ?_, ?_⟩
      · rw [← q1]; exact hread_set_ne s1.heap t a none (fun h => hat h.symm)
      · intro hn
        simp only
        rw [List.getElem?_set_ne (fun h => hj h.symm)]; exact q2 hn
      · intro hn
        simp only
        rw [List.getElem?_set_ne (fun h => hj h.symm)]; exact q3 hn
  · refine ⟨s1, ?_, e2, e3, e4, c2, ?_, ?_, ?_⟩
    · simp only [if_neg (fun h => hpar (hcond.mp h))]
    · intro hp; exact absurd hp hpar
    · intro _; exact ⟨o4, o1⟩
    · intro j a r hj hs hra
      exact (hothers j a r hj hs hra).2

/-! ## Exit, orphans and reaping -/

/-- C17: exit sweep.  On a process table in which each record sits at index
`pid - 2`, for an exiting process `P` whose own record `rP` (at address `t`,
in slot `k`) does not name `P` itself as parent, `sys__exit` returns a table
in which (a) no record has parent `P`; (b) every record that had parent `P`
and the exited flag set is gone, its slot empty; (c) every record that had
parent `P` and was still running is in its slot with the parent cleared and
every other field unchanged; (d) every record whose parent was not `P`, other
than the record of `P` itself, is in its slot unchanged. -/
theorem sys__exit_sweep (s : PState) (P t k : Nat) (rP : proc_table) (c : Int)
    (hwf : TableWF s) (hk : s.pt[k]? = some (some t)) (hr : hread s.heap t = some rP)
    (hself : rP.parent ≠ some P) :
    ∃ s2, sys__exit s P t c = some s2 ∧
      (∀ (j a : Nat) (r : proc_table), s2.pt[j]? = some (some a) →
        hread s2.heap a = some r → r.parent ≠ some P) ∧
      (∀ (j a : Nat) (r : proc_table), s.pt[j]? = some (some a) → hread s.heap a = some r →
        r.parent = some P → r.exit_status = true →
        s2.pt[j]? = some none ∧ hread s2.heap a = none) ∧
      (∀ (j a : Nat) (r : proc_table), s.pt[j]? = some (some a) → hread s.heap a = some r →
        r.parent = some P → r.exit_status = false →
        s2.pt[j]? = some (some a) ∧ hread s2.heap a = some { r with parent := none }) ∧
      (∀ (j a : Nat) (r : proc_table), s.pt[j]? = some (some a) → hread s.heap a = some r →
        r.parent ≠ some P → j ≠ k →
        s2.pt[j]? = some (some a) ∧ hread s2.heap a = some r) := by
  obtain ⟨s2, e1, e2, _, e4, c2, o1, o2, c3⟩ := sys__exit_spec s P t k rP c hwf hk hr hself
  have hnotk : ∀ (j a : Nat) (r : proc_table), s.pt[j]? = some (some a) →
      hread s.heap a = some r → r.parent = some P → j ≠ k := by
    intro j a r hs hra hp e
    subst e
    rw [hk] at hs
    have := Option.some.inj (Option.some.inj hs)
    subst this
    rw [hr] at hra
    have := Option.some.inj hra
    subst this
    exact hself hp
  refine ⟨s2, e1, ?_, ?_, ?_, ?_⟩
  · intro j a r hs hra hp
    have hjlt : j < s.pt.length := by rw [← e4]; exact lt_length_of_slot hs
    cases hsj : s.pt[j]? with
    | none =>
      rw [List.getElem?_eq_getElem hjlt] at hsj
      exact Option.noConfusion hsj
    | some x =>
      cases x with
      | none =>
        rw [c2 j hsj] at hs
        exact absurd (Option.some.inj hs) (by simp)
      | some a0 =>
        obtain ⟨r0, hr0, _⟩ := hwf.2 j a0 hsj
        by_cases e : j = k
        · subst e
          rw [hk] at hsj
          have := Option.some.inj (Option.some.inj hsj)
          subst this
          by_cases hpar : rP.parent = none ∨ rP.parent = some s.kproc
          · rw [(o1 hpar).1] at hs
            exact absurd (Option.some.inj hs) (by simp)
          · obtain ⟨q1, q2⟩ := o2 hpar
            rw [q1] at hs
            have := Option.some.inj (Option.some.inj hs)
            subst this
            rw [q2] at hra
            rw [← Option.some.inj hra] at hp
            exact hself hp
        · obtain ⟨q1, q2, q3⟩ := c3 j a0 r0 e hsj hr0
          by_cases hn : after_sweep P r0 = none
          · rw [q2 hn] at hs
            exact absurd (Option.some.inj hs) (by simp)
          · rw [q3 hn] at hs
            have := Option.some.inj (Option.some.inj hs)
            subst this
            rw [q1] at hra
            unfold after_sweep at hra
            by_cases h1 : r0.parent = some P ∧ r0.exit_status = true
            · rw [if_pos h1] at hra; exact Option.noConfusion hra
            · rw [if_neg h1] at hra
              by_cases h2 : r0.parent = some P
              · rw [if_pos h2] at hra
                rw [← Option.some.inj hra] at hp
                exact absurd hp (by simp)
              · rw [if_neg h2] at hra
                rw [← Option.some.inj hra] at hp
                exact h2 hp
  · intro j a r hs hra hp hex
    obtain ⟨q1, q2, _⟩ := c3 j a r (hnotk j a r hs hra hp) hs hra
    have hn : after_sweep P r = none := by
      unfold after_sweep; rw [if_pos ⟨hp, hex⟩]
    exact ⟨q2 hn, by rw [q1, hn]⟩
  · intro j a r hs hra hp hex
    obtain ⟨q1, _, q3⟩ := c3 j a r (hnotk j a r hs hra hp) hs hra
    have hn : after_sweep P r = some { r with parent := none } := by
      unfold after_sweep
      rw [if_neg (by rw [hex]; simp), if_pos hp]
    exact ⟨q3 (by rw [hn]; simp), by rw [q1, hn]⟩
  · intro j a r hs hra hp hj
    obtain ⟨q1, _, q3⟩ := c3 j a r hj hs hra
    have hn : after_sweep P r = some r := by
      unfold after_sweep
      rw [if_neg (fun h => hp h.1), if_neg hp]
    exact ⟨q3 (by rw [hn]; simp), by rw [q1, hn]⟩

theorem pstate_sample_wf : TableWF pstate_sample := by
  refine ⟨by decide, ?_⟩
  intro i a h
  match i, h with
  | 0, h =>
    have := Option.some.inj (Option.some.inj h)
    subst this
    exact ⟨_, rfl, rfl⟩
  | 1, h =>
    have := Option.some.inj (Option.some.inj h)
    subst this
    exact ⟨_, rfl, rfl⟩
  | 2, h =>
    have := Option.some.inj (Option.some.inj h)
    subst this
    exact ⟨_, rfl, rfl⟩
  | n + 3, h => exact absurd h (by simp [pstate_sample])

theorem sys__exit_sweep_witness :
    ∃ s2, sys__exit pstate_sample 100 1 7 = some s2 ∧
      (∀ (j a : Nat) (r : proc_table), s2.pt[j]? = some (some a) →
        hread s2.heap a = some r → r.parent ≠ some 100) ∧
      (∀ (j a : Nat) (r : proc_table), pstate_sample.pt[j]? = some (some a) →
        hread pstate_sample.heap a = some r →
        r.parent = some 100 → r.exit_status = true →
        s2.pt[j]? = some none ∧ hread s2.heap a = none) ∧
      (∀ (j a : Nat) (r : proc_table), pstate_sample.pt[j]? = some (some a) →
        hread pstate_sample.heap a = some r →
        r.parent = some 100 → r.exit_status = false →
        s2.pt[j]? = some (some a) ∧ hread s2.heap a = some { r with parent := none }) ∧
      (∀ (j a : Nat) (r : proc_table), pstate_sample.pt[j]? = some (some a) →
        hread pstate_sample.heap a = some r →
        r.parent ≠ some 100 → j ≠ 0 →
        s2.pt[j]? = some (some a) ∧ hread s2.heap a = some r) :=
  sys__exit_sweep pstate_sample 100 1 0
    { pid := 2, parent := some 1, exitcode := 0, exit_status := false, proc := some 100 } 7
    pstate_sample_wf (by decide) (by decide) (by decide)

/-- C12: orphans.  On a process table in which each record sits at index
`pid - 2`: (1) when a running child `C` (record `rC` at address `tC`, slot
`kC`) has parent `P` (record `rP` at `tP`, slot `kP`, not its own parent) and
`P` runs `sys__exit` and then `C` runs `sys__exit`, both calls return and
after the second the slot of `C` is empty and its record released; (2) more
generally, when a process other than the kernel process, whose record has no
parent or the kernel process as parent, runs `sys__exit`, the call returns
and its own slot is empty afterwards. -/
theorem sys__exit_orphan (s : PState) (hwf : TableWF s) :
    (∀ (P C tP kP tC kC : Nat) (rP rC : proc_table) (c1 c2 : Int),
      s.pt[kP]? = some (some tP) → hread s.heap tP = some rP → rP.parent ≠ some P →
      s.pt[kC]? = some (some tC) → hread s.heap tC = some rC → rC.parent = some P →
      rC.exit_status = false →
      ∃ s1 s2, sys__exit s P tP c1 = some s1 ∧ sys__exit s1 C tC c2 = some s2 ∧
        s2.pt[kC]? = some none ∧ hread s2.heap tC = none) ∧
    (∀ (P t k : Nat) (r : proc_table) (c : Int),
      s.pt[k]? = some (some t) → hread s.heap t = some r →
      r.parent = none ∨ r.parent = some s.kproc → P ≠ s.kproc →
      ∃ s2, sys__exit s P t c = some s2 ∧ s2.pt[k]? = some none ∧ hread s2.heap t = none) := by
  constructor
  · intro P C tP kP tC kC rP rC c1 c2 hkP hrP hself hkC hrC hpar hrun
    obtain ⟨s1, e1, e2, e3, _, _, _, _, c3⟩ := sys__exit_spec s P tP kP rP c1 hwf hkP hrP hself
    have hne : kC ≠ kP := by
      intro e
      subst e
      rw [hkP] at hkC
      have := Option.some.inj (Option.some.inj hkC)
      subst this
      rw [hrP] at hrC
      have := Option.some.inj hrC
      subst this
      exact hself hpar
    obtain ⟨q1, _, q3⟩ := c3 kC tC rC hne hkC hrC
    have hn : after_sweep P rC = some { rC with parent := none } := by
      unfold after_sweep
      rw [if_neg (by rw [hrun]; simp), if_pos hpar]
    rw [hn] at q1
    have q4 := q3 (by rw [hn]; simp)
    obtain ⟨s2, f1, _, _, _, _, g1, _, _⟩ := sys__exit_spec s1 C tC kC
      { rC with parent := none } c2 e2 q4 q1 (by simp)
    exact ⟨s1, s2, e1, f1, g1 (Or.inl rfl)⟩
  · intro P t k r c hk hr hpar hP
    have hself : r.parent ≠ some P := by
      rcases hpar with h | h
      · rw [h]; simp
      · rw [h]
        intro hc
        exact hP (Option.some.inj hc).symm
    obtain ⟨s2, e1, _, _, _, _, o1, _, _⟩ := sys__exit_spec s P t k r c hwf hk hr hself
    exact ⟨s2, e1, o1 hpar⟩

theorem sys__exit_orphan_witness :
    ∃ s1 s2, sys__exit pstate_sample 100 1 7 = some s1 ∧ sys__exit s1 200 2 9 = some s2 ∧
      s2.pt[1]? = some none ∧ hread s2.heap 2 = none :=
  (sys__exit_orphan pstate_sample pstate_sample_wf).1 100 200 1 0 2 1
    { pid := 2, parent := some 1, exitcode := 0, exit_status := false, proc := some 100 }
    { pid := 3, parent := some 100, exitcode := 0, exit_status := false, proc := some 200 }
    7 9 (by decide) (by decide) (by decide) (by decide) (by decide) (by decide) (by decide)

/-- A call of `sys_waitpid` for a pid in range whose slot is empty returns
ECHILD and changes nothing. -/
theorem sys_waitpid_empty_slot (s : PState) (curproc k : Nat) (copyout_result : Int)
    (hpid : (k : Int) + 2 ≤ PID_MAX) (hslot : s.pt[k]? = some none) :
    sys_waitpid s curproc ((k : Int) + 2) 0 copyout_result = .returned ECHILD none none s := by
  have hklt := lt_length_of_slot hslot
  have a1 : ¬ ((k : Int) + 2 > PID_MAX ∨ (k : Int) + 2 < PID_MIN) := by
    unfold PID_MAX PID_MIN at *; omega
  have a2 : sub32 (toU32 ((k : Int) + 2)) 2 = k := by
    unfold PID_MAX sub32 toU32 WORD at *; omega
  have a4 : toU32 ((k : Int) + 2 - 2) = k := by
    unfold PID_MAX toU32 at *; omega
  have a3 : ¬ sub32 (toU32 ((k : Int) + 2)) 2 ≥ s.pt.length := by rw [a2]; omega
  unfold sys_waitpid
  simp only [ne_eq, not_true_eq_false, if_false, if_neg a1, if_neg a3, a4, hslot]

/-- C11: exit, then reap.  On a process table in which each record sits at
index `pid - 2`, for a child `C` whose record `rC` (at address `tC`, in slot
`kC`, so with the legal pid `kC + 2`) has the parent `P`, `P` being neither
the kernel process nor `C` itself: `sys__exit c` by `C` returns and leaves the
record of `C` in its slot with the exited flag set and the status
`_MKWAIT_EXIT c`; a following `sys_waitpid (pid of C) 0` by `P`, with a status
pointer that `copyout` accepts, returns 0, stores the pid of `C` through
`retval` and exactly that status through the status pointer, and leaves the
slot of `C` empty; a second such call by `P` returns ECHILD. -/
theorem exit_then_reap (s : PState) (P C tC kC : Nat) (rC : proc_table) (c : Int)
    (hwf : TableWF s) (hk : s.pt[kC]? = some (some tC)) (hr : hread s.heap tC = some rC)
    (hpar : rC.parent = some P) (hkp : P ≠ s.kproc) (hPC : P ≠ C)
    (hpid : (kC : Int) + 2 ≤ PID_MAX) :
    ∃ s1 s2, sys__exit s C tC c = some s1 ∧
      s1.pt[kC]? = some (some tC) ∧
      (∃ r1, hread s1.heap tC = some r1 ∧ r1.exit_status = true ∧
        r1.exitcode = _MKWAIT_EXIT c ∧ r1.pid = (kC : Int) + 2 ∧ r1.parent = some P) ∧
      sys_waitpid s1 P ((kC : Int) + 2) 0 0
        = .returned 0 (some ((kC : Int) + 2)) (some (_MKWAIT_EXIT c)) s2 ∧
      s2.pt[kC]? = some none ∧
      ∀ copyout_result,
        sys_waitpid s2 P ((kC : Int) + 2) 0 copyout_result = .returned ECHILD none none s2 := by
  have hself : rC.parent ≠ some C := by
    rw [hpar]
    intro hc
    exact hPC (Option.some.inj hc)
  have hnp : ¬ (rC.parent = none ∨ rC.parent = some s.kproc) := by
    rw [hpar]
    intro hc
    rcases hc with h | h
    · exact Option.noConfusion h
    · exact hkp (Option.some.inj h)
  obtain ⟨s1, e1, e2, _, e4, _, _, o2, _⟩ := sys__exit_spec s C tC kC rC c hwf hk hr hself
  obtain ⟨q1, q2⟩ := o2 hnp
  obtain ⟨rk, hrk, hpidC⟩ := hwf.2 kC tC hk
  rw [hr] at hrk
  have := Option.some.inj hrk
  subst this
  obtain ⟨cl1, cl2⟩ := proc_table_cleanup_spec s1 tC kC (mark_exited rC c) q1
    (fun j hj => wf_no_alias s1 e2 j kC tC hj q1) q2
  have hklt := lt_length_of_slot q1
  have a1 : ¬ ((kC : Int) + 2 > PID_MAX ∨ (kC : Int) + 2 < PID_MIN) := by
    unfold PID_MAX PID_MIN at *; omega
  have a2 : sub32 (toU32 ((kC : Int) + 2)) 2 = kC := by
    unfold PID_MAX sub32 toU32 WORD at *; omega
  have a4 : toU32 ((kC : Int) + 2 - 2) = kC := by
    unfold PID_MAX toU32 at *; omega
  have a3 : ¬ sub32 (toU32 ((kC : Int) + 2)) 2 ≥ s1.pt.length := by rw [a2]; omega
  have hp1 : (mark_exited rC c).parent = some P := hpar
  refine ⟨s1, { s1 with pt := s1.pt.set kC none, heap := s1.heap.set tC none }, e1, q1,
    ⟨mark_exited rC c, q2, rfl, rfl, hpidC, hpar⟩, ?_, cl2.2.1, ?_⟩
  · unfold sys_waitpid
    simp only [ne_eq, not_true_eq_false, if_false, if_neg a1, if_neg a3, a4, q1, q2, hp1, cl1]
    simp [mark_exited]
  · intro cr
    exact sys_waitpid_empty_slot _ P kC cr hpid cl2.2.1

theorem exit_then_reap_witness :
    ∃ s1 s2, sys__exit pstate_sample 200 2 7 = some s1 ∧
      s1.pt[1]? = some (some 2) ∧
      (∃ r1, hread s1.heap 2 = some r1 ∧ r1.exit_status = true ∧
        r1.exitcode = _MKWAIT_EXIT 7 ∧ r1.pid = ((1 : Nat) : Int) + 2 ∧ r1.parent = some 100) ∧
      sys_waitpid s1 100 (((1 : Nat) : Int) + 2) 0 0
        = .returned 0 (some (((1 : Nat) : Int) + 2)) (some (_MKWAIT_EXIT 7)) s2 ∧
      s2.pt[1]? = some none ∧
      ∀ copyout_result,
        sys_waitpid s2 100 (((1 : Nat) : Int) + 2) 0 copyout_result
          = .returned ECHILD none none s2 :=
  exit_then_reap pstate_sample 100 200 2 1
    { pid := 3, parent := some 100, exitcode := 0, exit_status := false, proc := some 200 } 7
    pstate_sample_wf (by decide) (by decide) (by decide) (by decide) (by decide) (by decide)

end ProcSyscalls
